import Mathlib

/-!
Shallow embedding of the agentic tool-calling loop of the context-graph
backend (`backend/app/bedrock_agent.py`, `backend/app/agent_bedrock.py`,
`backend/app/agent.py`, `backend/app/bedrock_client.py`), together with
proofs settling the frozen claims about it.

JSON values are modelled by an inductive `Json` type with integer numerals;
`dumps`/`loads` model Python's `json.dumps`/`json.loads` on this fragment
(`loads` rejects trailing non-whitespace, exactly as Python raises
"Extra data").  Stateful Python code is embedded by explicit state passing;
an exception that escapes a function is modelled by a `raised`/`exn` flag
in its result.
-/

namespace ContextGraph

/-- JSON values (numbers restricted to integers, which covers every JSON
payload appearing in the repository's loop logic). -/
inductive Json where
  | null : Json
  | bool (b : Bool) : Json
  | num (n : Int) : Json
  | str (s : String) : Json
  | arr (xs : List Json) : Json
  | obj (kvs : List (String × Json)) : Json

/-- The character `{`, built numerically. -/
def lbrace : Char := Char.ofNat 123

/-- The character `}`, built numerically. -/
def rbrace : Char := Char.ofNat 125

/-- Escape one character the way `json.dumps` does (common cases). -/
def escChar (c : Char) : String :=
  if c = '"' then "\\\""
  else if c = '\\' then "\\\\"
  else if c = '\n' then "\\n"
  else if c = '\t' then "\\t"
  else if c = '\r' then "\\r"
  else String.singleton c

/-- Escape a string the way `json.dumps` does. -/
def escString (s : String) : String :=
  String.join (s.toList.map escChar)

mutual

/-- Model of `json.dumps` with Python's default separators. -/
def dumps : Json → String
  | .null => "null"
  | .bool b => if b then "true" else "false"
  | .num n => toString n
  | .str s => "\"" ++ escString s ++ "\""
  | .arr xs => "[" ++ dumpsArr xs ++ "]"
  | .obj kvs => String.singleton lbrace ++ dumpsObj kvs ++ String.singleton rbrace

/-- Serialize array elements, separated by Python's default `, `. -/
def dumpsArr : List Json → String
  | [] => ""
  | [x] => dumps x
  | x :: y :: xs => dumps x ++ ", " ++ dumpsArr (y :: xs)

/-- Serialize object entries, separated by `, ` with `: ` after each key. -/
def dumpsObj : List (String × Json) → String
  | [] => ""
  | [(k, v)] => "\"" ++ escString k ++ "\": " ++ dumps v
  | (k, v) :: e :: kvs => "\"" ++ escString k ++ "\": " ++ dumps v ++ ", " ++ dumpsObj (e :: kvs)

end

/-- Whitespace as accepted by Python's JSON parser. -/
def isWs (c : Char) : Bool :=
  c = ' ' || c = '\n' || c = '\t' || c = '\r'

/-- Drop leading JSON whitespace. -/
def skipWs : List Char → List Char
  | [] => []
  | c :: cs => if isWs c then skipWs cs else c :: cs

/-- Parse the body of a JSON string after the opening quote, handling the
common escapes; returns the decoded string and the rest of the input. -/
def parseStringBody : List Char → Option (String × List Char)
  | [] => none
  | '"' :: rest => some ("", rest)
  | '\\' :: e :: rest =>
    let c := if e = 'n' then '\n' else if e = 't' then '\t' else if e = 'r' then '\r' else e
    match parseStringBody rest with
    | some (s, r) => some (String.singleton c ++ s, r)
    | none => none
  | c :: rest =>
    if c = '\\' then none
    else
      match parseStringBody rest with
      | some (s, r) => some (String.singleton c ++ s, r)
      | none => none

/-- Take leading decimal digits. -/
def takeDigits : List Char → (List Char × List Char)
  | [] => ([], [])
  | c :: cs =>
    if c.isDigit then
      let (ds, r) := takeDigits cs
      (c :: ds, r)
    else ([], c :: cs)

/-- Numeric value of a digit list. -/
def digitsToNat (ds : List Char) : Nat :=
  ds.foldl (fun a c => a * 10 + (c.toNat - 48)) 0

/-- Parse an integer JSON numeral (optional minus sign, digits). -/
def parseIntLit : List Char → Option (Int × List Char)
  | [] => none
  | c :: cs =>
    if c = '-' then
      match takeDigits cs with
      | ([], _) => none
      | (ds, r) => some (-(Int.ofNat (digitsToNat ds)), r)
    else
      match takeDigits (c :: cs) with
      | ([], _) => none
      | (ds, r) => some (Int.ofNat (digitsToNat ds), r)

/-- Check that the input starts with the given characters. -/
def expectChars : List Char → List Char → Option (List Char)
  | [], rest => some rest
  | e :: es, c :: rest => if c = e then expectChars es rest else none
  | _ :: _, [] => none

mutual

/-- Recursive-descent JSON value parser, fuel-bounded.  Mirrors the grammar
`json.loads` accepts on the embedded fragment. -/
def parseValue : Nat → List Char → Option (Json × List Char)
  | 0, _ => none
  | Nat.succ fuel, cs =>
    match skipWs cs with
    | [] => none
    | c :: rest =>
      if c = '"' then
        match parseStringBody rest with
        | some (s, r) => some (Json.str s, r)
        | none => none
      else if c = lbrace then parseObjItems fuel (skipWs rest)
      else if c = '[' then parseArrItems fuel (skipWs rest)
      else if c = 'n' then
        match expectChars ['u', 'l', 'l'] rest with
        | some r => some (Json.null, r)
        | none => none
      else if c = 't' then
        match expectChars ['r', 'u', 'e'] rest with
        | some r => some (Json.bool true, r)
        | none => none
      else if c = 'f' then
        match expectChars ['a', 'l', 's', 'e'] rest with
        | some r => some (Json.bool false, r)
        | none => none
      else if c = '-' || c.isDigit then
        match parseIntLit (c :: rest) with
        | some (n, r) => some (Json.num n, r)
        | none => none
      else none

/-- Parse object entries immediately after `{` (whitespace skipped). -/
def parseObjItems : Nat → List Char → Option (Json × List Char)
  | 0, _ => none
  | Nat.succ fuel, cs =>
    match cs with
    | [] => none
    | c :: rest =>
      if c = rbrace then some (Json.obj [], rest)
      else
        match parseObjPairs fuel (c :: rest) with
        | some (kvs, r) => some (Json.obj kvs, r)
        | none => none

/-- Parse one or more `"key": value` pairs followed by `}`. -/
def parseObjPairs : Nat → List Char → Option (List (String × Json) × List Char)
  | 0, _ => none
  | Nat.succ fuel, cs =>
    match skipWs cs with
    | '"' :: rest =>
      match parseStringBody rest with
      | some (k, r1) =>
        match skipWs r1 with
        | ':' :: r2 =>
          match parseValue fuel r2 with
          | some (v, r3) =>
            match skipWs r3 with
            | ',' :: r4 =>
              match parseObjPairs fuel r4 with
              | some (kvs, r5) => some ((k, v) :: kvs, r5)
              | none => none
            | c :: r4 =>
              if c = rbrace then some ([(k, v)], r4) else none
            | [] => none
          | none => none
        | _ => none
      | none => none
    | _ => none

/-- Parse array elements immediately after `[` (whitespace skipped). -/
def parseArrItems : Nat → List Char → Option (Json × List Char)
  | 0, _ => none
  | Nat.succ fuel, cs =>
    match cs with
    | [] => none
    | c :: rest =>
      if c = ']' then some (Json.arr [], rest)
      else
        match parseArrElems fuel (c :: rest) with
        | some (xs, r) => some (Json.arr xs, r)
        | none => none

/-- Parse one or more array elements followed by `]`. -/
def parseArrElems : Nat → List Char → Option (List Json × List Char)
  | 0, _ => none
  | Nat.succ fuel, cs =>
    match parseValue fuel cs with
    | some (v, r) =>
      match skipWs r with
      | ',' :: r2 =>
        match parseArrElems fuel r2 with
        | some (xs, r3) => some (v :: xs, r3)
        | none => none
      | ']' :: r2 => some ([v], r2)
      | _ => none
    | none => none

end

/-- Model of `json.loads`: parse one JSON value and reject any trailing
non-whitespace (Python raises "Extra data" there, which the source code's
`except` clauses turn into `None`-like fallbacks). -/
def loads (s : String) : Option Json :=
  let cs := s.toList
  match parseValue (2 * cs.length + 4) cs with
  | some (j, rest) => if (skipWs rest).isEmpty then some j else none
  | none => none

/-- Embedding of the streamed tool-input accumulator of
`BedrockAgent.run_agentic_loop_stream` (bedrock_agent.py lines 289-297):
on each `input_json_delta` fragment the code tries
`json.loads(json.dumps(current_input) + partial_json)` and silently keeps
the old input when that parse fails. -/
def updateToolInput (cur : Json) (partial_json : String) : Json :=
  if partial_json = "" then cur
  else
    match loads (dumps cur ++ partial_json) with
    | some j => j
    | none => cur

/-- Conversation roles used by the Bedrock agent (tool-result turns are
sent with role `user`, exactly as in the source). -/
inductive Role where
  | user : Role
  | assistant : Role

/-- Content blocks of a model message (`text`, `tool_use`) and of a
tool-result turn (`tool_result`), mirroring the dict shapes in
bedrock_agent.py. -/
inductive Block where
  | text (s : String) : Block
  | toolUse (id name : String) (input : Json) : Block
  | toolResult (tool_use_id : String) (content : List Json) (is_error : Bool) : Block

/-- A turn's content: user messages are plain strings, assistant and
tool-result turns carry block lists. -/
inductive TurnContent where
  | str (s : String) : TurnContent
  | blocks (bs : List Block) : TurnContent

/-- One entry of `conversation_history`. -/
structure Turn where
  role : Role
  content : TurnContent

/-- A `role: user` turn with string content. -/
def userTurn (message : String) : Turn :=
  ⟨Role.user, TurnContent.str message⟩

/-- A `role: assistant` turn with block content. -/
def assistantTurn (bs : List Block) : Turn :=
  ⟨Role.assistant, TurnContent.blocks bs⟩

/-- The combined tool-result turn appended by the loops: role `user` with
the accumulated `tool_result` blocks (bedrock_agent.py lines 235-239 and
322-327). -/
def toolResultsTurn (bs : List Block) : Turn :=
  ⟨Role.user, TurnContent.blocks bs⟩

/-- A non-streaming model response, as returned by
`BedrockClaudeClient.invoke`: `content` plus optional `stop_reason`. -/
structure ModelResponse where
  content : List Block
  stop_reason : Option String

/-- The result dict returned by a tool handler / `execute_tool`. -/
structure ToolResult where
  content : List Json
  is_error : Bool

/-- Outcome of invoking a tool handler: a normal result, or a raised
exception carrying the exception's message. -/
inductive HandlerOutcome where
  | ok (r : ToolResult) : HandlerOutcome
  | exn (message : String) : HandlerOutcome

/-- The `tool_handlers` dict: tool name to handler. -/
def Handlers : Type :=
  List (String × (Json → HandlerOutcome))

/-- Dict lookup on the handlers table. -/
def lookupHandler : Handlers → String → Option (Json → HandlerOutcome)
  | [], _ => none
  | (n, h) :: rest, name => if n = name then some h else lookupHandler rest name

/-- A `{"type": "text", "text": s}` content item. -/
def textItem (s : String) : Json :=
  Json.obj [("type", Json.str "text"), ("text", Json.str s)]

/-- Embedding of `BedrockAgent.execute_tool` (bedrock_agent.py lines
145-177): unknown names and handler exceptions both become error-tagged
results; a successful handler result is returned unchanged. -/
def execute_tool (handlers : Handlers) (tool_name : String) (tool_input : Json) : ToolResult :=
  match lookupHandler handlers tool_name with
  | none => ⟨[textItem ("Tool " ++ tool_name ++ " not found")], true⟩
  | some h =>
    match h tool_input with
    | HandlerOutcome.ok r => r
    | HandlerOutcome.exn e => ⟨[textItem ("Error executing " ++ tool_name ++ ": " ++ e)], true⟩

/-- A deterministic transport stub for `BedrockClaudeClient.invoke`: given
the messages list, either a response or a raised transport error. -/
def Oracle : Type :=
  List Turn → Except Unit ModelResponse

/-- Result of `BedrockAgent.query`: the transport outcome together with
the conversation history as it stands afterwards (unchanged when the
transport raised, since the source appends only after `invoke` returns). -/
structure QueryOut where
  result : Except Unit ModelResponse
  hist : List Turn

/-- Embedding of `BedrockAgent.query` (bedrock_agent.py lines 58-95):
invoke the transport on `history + [user message]`, then append the user
turn and, if the response content is non-empty, the assistant turn. -/
def query (oracle : Oracle) (hist : List Turn) (message : String) : QueryOut :=
  match oracle (hist ++ [userTurn message]) with
  | Except.error e => ⟨Except.error e, hist⟩
  | Except.ok resp =>
    let h1 := hist ++ [userTurn message]
    let h2 := if resp.content.isEmpty then h1 else h1 ++ [assistantTurn resp.content]
    ⟨Except.ok resp, h2⟩

/-- Accumulator of the per-turn block loop in `run_agentic_loop`
(bedrock_agent.py lines 205-233). -/
structure TurnAcc where
  response_text : String
  tool_calls : List (String × Json)
  has_tool_use : Bool
  tool_results : List Block

/-- Embedding of the `for block in content` loop of `run_agentic_loop`:
text blocks extend the response text; each `tool_use` block is recorded as
a tool call, dispatched through `execute_tool`, and its result appended to
`tool_results`. -/
def processBlocks (handlers : Handlers) : TurnAcc → List Block → TurnAcc
  | acc, [] => acc
  | acc, Block.text s :: rest =>
    processBlocks handlers { acc with response_text := acc.response_text ++ s } rest
  | acc, Block.toolUse id name input :: rest =>
    let result := execute_tool handlers name input
    processBlocks handlers
      { response_text := acc.response_text
        tool_calls := acc.tool_calls ++ [(name, input)]
        has_tool_use := true
        tool_results := acc.tool_results ++ [Block.toolResult id result.content result.is_error] }
      rest
  | acc, Block.toolResult _ _ _ :: rest => processBlocks handlers acc rest

/-- Outcome of one iteration of `run_agentic_loop`. -/
structure StepOut where
  hist : List Turn
  text : String
  calls : List (String × Json)
  stop : Bool
  raised : Bool

/-- One iteration of `run_agentic_loop` (bedrock_agent.py lines 199-241):
query the model, process the content blocks, then either append the single
combined tool-result turn and continue, break on `end_turn`, or continue. -/
def loopStep (oracle : Oracle) (handlers : Handlers) (message : String) (hist : List Turn)
    (text : String) (calls : List (String × Json)) : StepOut :=
  match (query oracle hist message).result with
  | Except.error _ => ⟨(query oracle hist message).hist, text, calls, true, true⟩
  | Except.ok resp =>
    let acc := processBlocks handlers ⟨text, calls, false, []⟩ resp.content
    if acc.has_tool_use && !acc.tool_results.isEmpty then
      ⟨(query oracle hist message).hist ++ [toolResultsTurn acc.tool_results],
        acc.response_text, acc.tool_calls, false, false⟩
    else if resp.stop_reason = some "end_turn" then
      ⟨(query oracle hist message).hist, acc.response_text, acc.tool_calls, true, false⟩
    else
      ⟨(query oracle hist message).hist, acc.response_text, acc.tool_calls, false, false⟩

/-- Result of `run_agentic_loop`, instrumented with the number of model
requests issued and whether an exception escaped. -/
structure LoopOut where
  response : String
  tool_calls : List (String × Json)
  hist : List Turn
  requests : Nat
  raised : Bool

/-- The iteration recursion of `run_agentic_loop`: `fuel` is the number of
remaining iterations of `for iteration in range(max_iterations)`; `iter`
selects the initial message on the first iteration and `""` afterwards. -/
def runLoopAux (oracle : Oracle) (handlers : Handlers) (message : String) :
    Nat → Nat → List Turn → String → List (String × Json) → Nat → LoopOut
  | 0, _, hist, text, calls, reqs => ⟨text, calls, hist, reqs, false⟩
  | Nat.succ fuel, iter, hist, text, calls, reqs =>
    let s := loopStep oracle handlers (if iter = 0 then message else "") hist text calls
    if s.raised then ⟨s.text, s.calls, s.hist, reqs + 1, true⟩
    else if s.stop then ⟨s.text, s.calls, s.hist, reqs + 1, false⟩
    else runLoopAux oracle handlers message fuel (iter + 1) s.hist s.text s.calls (reqs + 1)

/-- Embedding of `BedrockAgent.run_agentic_loop` (bedrock_agent.py lines
179-246). -/
def run_agentic_loop (oracle : Oracle) (handlers : Handlers) (hist : List Turn)
    (message : String) (max_iterations : Nat) : LoopOut :=
  runLoopAux oracle handlers message max_iterations 0 hist "" [] 0

/-- The `tool_use` ids of a content list, in order. -/
def toolUseIds : List Block → List String
  | [] => []
  | Block.toolUse id _ _ :: rest => id :: toolUseIds rest
  | _ :: rest => toolUseIds rest

/-- The `tool_use_id`s of the `tool_result` blocks of a list, in order. -/
def resultIds : List Block → List String
  | [] => []
  | Block.toolResult id _ _ :: rest => id :: resultIds rest
  | _ :: rest => resultIds rest

/-- Concatenation of the `text` blocks of a content list. -/
def joinTextBlocks : List Block → String
  | [] => ""
  | Block.text s :: rest => s ++ joinTextBlocks rest
  | _ :: rest => joinTextBlocks rest

/-- The `content_block` field of a `content_block_start` stream chunk. -/
inductive StartBlock where
  | toolUseStart (id name : String) : StartBlock
  | textStart : StartBlock
  | otherStart : StartBlock

/-- The `delta` field of a `content_block_delta` stream chunk. -/
inductive Delta where
  | textDelta (s : String) : Delta
  | inputJsonDelta (partial_json : String) : Delta
  | otherDelta : Delta

/-- A chunk yielded by `BedrockClaudeClient.invoke_stream`. -/
inductive Chunk where
  | contentBlockStart (content_block : StartBlock) : Chunk
  | contentBlockDelta (delta : Delta) : Chunk
  | contentBlockStop : Chunk
  | messageStop : Chunk
  | otherChunk : Chunk

/-- A deterministic transport stub for one streaming request: the chunks
yielded in order, and whether the stream raises a transport error after
the last yielded chunk. -/
structure StreamResp where
  chunks : List Chunk
  errors : Bool

/-- Caller-facing events: the dict shapes yielded by
`run_agentic_loop_stream`, the `agent_context`/`done` events of the
wrappers, and the SDK agent's parsed `tool_result` shape. -/
inductive Event where
  | agentContext : Event
  | textEv (content : String) : Event
  | toolUseEv (name : String) (input : Json) : Event
  | toolResultEv (name : String) (output : ToolResult) : Event
  | sdkToolResult (name : String) (output : Option Json) : Event
  | doneEv (tool_calls : List (String × Json)) : Event

/-- Per-message state of `run_agentic_loop_stream` (bedrock_agent.py lines
260-262), instrumented with the list of (name, input) pairs passed to
`execute_tool`. -/
structure LoopChunkState where
  cur : Option (String × String × Json)
  tool_results : List Block
  has_tool_use : Bool
  dispatches : List (String × Json)

/-- Whether `BedrockAgent.query_stream` (bedrock_agent.py lines 116-137)
yields a chunk to its consumer: every chunk is forwarded except
`content_block_delta` chunks whose delta is not a `text_delta` — in
particular `input_json_delta` chunks never reach the agentic loop. -/
def queryStreamYield : Chunk → Bool
  | Chunk.contentBlockDelta (Delta.textDelta _) => true
  | Chunk.contentBlockDelta _ => false
  | _ => true

/-- The `accumulated_content` update of `BedrockAgent.query_stream`: text
deltas are stored as text blocks, `tool_use` block starts as tool-use
blocks (whose streamed header carries an empty `input`). -/
def queryStreamAccum (acc : List Block) : Chunk → List Block
  | Chunk.contentBlockDelta (Delta.textDelta s) => acc ++ [Block.text s]
  | Chunk.contentBlockStart (StartBlock.toolUseStart id name) =>
    acc ++ [Block.toolUse id name (Json.obj [])]
  | _ => acc

/-- Embedding of the chunk dispatch inside `run_agentic_loop_stream`
(bedrock_agent.py lines 264-329) for one yielded chunk: returns the new
state, the new history, the events emitted, and whether the generator
executed `return` (at `message_stop` without collected tool results). -/
def loopHandleChunk (handlers : Handlers) (st : LoopChunkState) (hist : List Turn) :
    Chunk → LoopChunkState × List Turn × List Event × Bool
  | Chunk.contentBlockStart (StartBlock.toolUseStart id name) =>
    (⟨some (id, name, Json.obj []), st.tool_results, true, st.dispatches⟩,
      hist, [Event.toolUseEv name (Json.obj [])], false)
  | Chunk.contentBlockStart _ => (st, hist, [], false)
  | Chunk.contentBlockDelta (Delta.textDelta s) => (st, hist, [Event.textEv s], false)
  | Chunk.contentBlockDelta (Delta.inputJsonDelta pj) =>
    (match st.cur with
      | some (id, name, input) =>
        ⟨some (id, name, updateToolInput input pj), st.tool_results, st.has_tool_use, st.dispatches⟩
      | none => st,
      hist, [], false)
  | Chunk.contentBlockDelta Delta.otherDelta => (st, hist, [], false)
  | Chunk.contentBlockStop =>
    match st.cur with
    | some (id, name, input) =>
      let result := execute_tool handlers name input
      (⟨none,
          st.tool_results ++ [Block.toolResult id result.content result.is_error],
          st.has_tool_use,
          st.dispatches ++ [(name, input)]⟩,
        hist, [Event.toolResultEv name result], false)
    | none => (st, hist, [], false)
  | Chunk.messageStop =>
    if st.has_tool_use && !st.tool_results.isEmpty then
      (st, hist ++ [toolResultsTurn st.tool_results], [], false)
    else (st, hist, [], true)
  | Chunk.otherChunk => (st, hist, [], false)

/-- Combined output of processing one iteration's chunk list. -/
structure ChunksOut where
  qAcc : List Block
  st : LoopChunkState
  hist : List Turn
  events : List Event
  returned : Bool

/-- Interleaved execution of `query_stream` and the chunk loop of
`run_agentic_loop_stream` over one streamed message: each raw chunk first
updates `accumulated_content`, then, if `query_stream` yields it, is
processed by the agentic loop; a `return` inside the loop closes the
generator, so the remaining chunks are never consumed. -/
def runIterChunks (handlers : Handlers) :
    List Chunk → List Block → LoopChunkState → List Turn → List Event → ChunksOut
  | [], qAcc, st, hist, evs => ⟨qAcc, st, hist, evs, false⟩
  | c :: cs, qAcc, st, hist, evs =>
    let qAcc2 := queryStreamAccum qAcc c
    if queryStreamYield c then
      let r := loopHandleChunk handlers st hist c
      if r.2.2.2 then ⟨qAcc2, r.1, r.2.1, evs ++ r.2.2.1, true⟩
      else runIterChunks handlers cs qAcc2 r.1 r.2.1 (evs ++ r.2.2.1)
    else runIterChunks handlers cs qAcc2 st hist evs

/-- Result of one `query_stream`-driven iteration of
`run_agentic_loop_stream`. -/
structure IterOut where
  hist : List Turn
  events : List Event
  returned : Bool
  raised : Bool
  dispatches : List (String × Json)

/-- The initial per-message loop state. -/
def initChunkState : LoopChunkState :=
  ⟨none, [], false, []⟩

/-- One iteration of `run_agentic_loop_stream`: `query_stream` appends the
user turn before streaming; after the chunks, an early `return` closes the
generator (skipping `query_stream`'s assistant-turn append), a transport
error propagates as a raised exception (also skipping the append), and
otherwise the accumulated assistant turn is appended after any tool-result
turn the loop already appended at `message_stop`. -/
def runStreamIter (handlers : Handlers) (resp : StreamResp) (hist : List Turn)
    (message : String) : IterOut :=
  let out := runIterChunks handlers resp.chunks [] initChunkState (hist ++ [userTurn message]) []
  { hist :=
      if out.returned then out.hist
      else if resp.errors then out.hist
      else if out.qAcc.isEmpty then out.hist
      else out.hist ++ [assistantTurn out.qAcc]
    events := out.events
    returned := out.returned
    raised := !out.returned && resp.errors
    dispatches := out.st.dispatches }

/-- A deterministic transport stub for `invoke_stream`: the messages list
determines the streamed response. -/
def StreamOracle : Type :=
  List Turn → StreamResp

/-- Result of `run_agentic_loop_stream`, instrumented with the number of
streaming model requests, the dispatched tool inputs, and whether an
exception escaped the generator. -/
structure StreamLoopOut where
  events : List Event
  hist : List Turn
  requests : Nat
  raised : Bool
  dispatches : List (String × Json)

/-- The iteration recursion of `run_agentic_loop_stream`
(bedrock_agent.py lines 259-329). -/
def runStreamLoopAux (oracle : StreamOracle) (handlers : Handlers) (message : String) :
    Nat → Nat → List Turn → List Event → Nat → List (String × Json) → StreamLoopOut
  | 0, _, hist, evs, reqs, disp => ⟨evs, hist, reqs, false, disp⟩
  | Nat.succ fuel, iter, hist, evs, reqs, disp =>
    let msg := if iter = 0 then message else ""
    let resp := oracle (hist ++ [userTurn msg])
    let o := runStreamIter handlers resp hist msg
    if o.returned then ⟨evs ++ o.events, o.hist, reqs + 1, false, disp ++ o.dispatches⟩
    else if o.raised then ⟨evs ++ o.events, o.hist, reqs + 1, true, disp ++ o.dispatches⟩
    else
      runStreamLoopAux oracle handlers message fuel (iter + 1) o.hist (evs ++ o.events)
        (reqs + 1) (disp ++ o.dispatches)

/-- Embedding of `BedrockAgent.run_agentic_loop_stream` (bedrock_agent.py
lines 248-329) driven by a deterministic transport stub. -/
def run_agentic_loop_stream (oracle : StreamOracle) (handlers : Handlers) (hist : List Turn)
    (message : String) (max_iterations : Nat) : StreamLoopOut :=
  runStreamLoopAux oracle handlers message max_iterations 0 hist [] 0 []

/-- Python's `xs[-n:]`: the last `n` elements (all of them when the list
is shorter). -/
def lastN (n : Nat) (xs : List α) : List α :=
  xs.drop (xs.length - n)

/-- History seeding of `ContextGraphAgentBedrock.query`/`query_stream`
(agent_bedrock.py lines 245-247 and 265-267): append the last 6 supplied
messages to the agent's transcript; the guard `if conversation_history:`
skips the loop only when nothing was supplied. -/
def seedHistory (agentHist supplied : List Turn) : List Turn :=
  if supplied.isEmpty then agentHist else agentHist ++ lastN 6 supplied

/-- Result dict of `ContextGraphAgentBedrock.query`. -/
structure WrapperOut where
  response : String
  tool_calls : List (String × Json)
  requests : Nat
  raised : Bool

/-- Embedding of `ContextGraphAgentBedrock.query` (agent_bedrock.py lines
241-259): seed the history, run the agentic loop with `max_iterations=10`,
and repackage the result (`decisions_made` is always the empty list). -/
def bedrockWrapperQuery (oracle : Oracle) (handlers : Handlers) (agentHist supplied : List Turn)
    (message : String) : WrapperOut :=
  let r := run_agentic_loop oracle handlers (seedHistory agentHist supplied) message 10
  ⟨r.response, r.tool_calls, r.requests, r.raised⟩

/-- Result of `ContextGraphAgentBedrock.query_stream`. -/
structure WrapperStreamOut where
  events : List Event
  raised : Bool

/-- Embedding of `ContextGraphAgentBedrock.query_stream` (agent_bedrock.py
lines 261-282): yield `agent_context`, forward every loop event, then
yield a `done` event whose `tool_calls` field is the literal empty list;
when the loop raises, the exception propagates and `done` is never
yielded. -/
def bedrockWrapperQueryStream (oracle : StreamOracle) (handlers : Handlers)
    (agentHist supplied : List Turn) (message : String) : WrapperStreamOut :=
  let o := run_agentic_loop_stream oracle handlers (seedHistory agentHist supplied) message 10
  if o.raised then ⟨Event.agentContext :: o.events, true⟩
  else ⟨Event.agentContext :: o.events ++ [Event.doneEv []], false⟩

/-- One line of the formatted history: `ROLE: content`. -/
def formatHistLine (m : String × String) : String :=
  m.1.toUpper ++ ": " ++ m.2

/-- Embedding of the prompt construction of `ContextGraphAgent.query` and
`ContextGraphAgent.query_stream` (agent.py lines 478-492 and 534-545):
when a history is supplied, only its last six messages are formatted into
the prompt text. -/
def buildFullMessage (conversation_history : List (String × String)) (message : String) : String :=
  if conversation_history.isEmpty then message
  else
    let history_text := String.intercalate "\n" ((lastN 6 conversation_history).map formatHistLine)
    "Previous conversation:\n" ++ history_text ++
      "\n\nCurrent message from USER: " ++ message ++
      "\n\nPlease respond to the current message, taking the conversation history into account."

/-- Content blocks of the vendor-SDK messages consumed by
`ContextGraphAgent.query_stream` (duck-typed in the source: text blocks
have `.text`, tool-use blocks have `.name`, tool-result blocks are
`ToolResultBlock`s). -/
inductive SdkBlock where
  | textB (text : String) : SdkBlock
  | toolUseB (id : Option String) (name : String) (input : Json) : SdkBlock
  | toolResultB (tool_use_id : Option String) (content : List Json) : SdkBlock

/-- Messages produced by the SDK's `receive_response` iterator. -/
inductive SdkMsg where
  | userMessage (content : List SdkBlock) : SdkMsg
  | assistantMessage (content : List SdkBlock) : SdkMsg
  | plainMsg : SdkMsg

/-- Mutable state of `ContextGraphAgent.query_stream` (agent.py lines
553-555) together with the events emitted so far. -/
structure SdkState where
  tool_calls : List (String × Json)
  idToName : List (String × String)
  events : List Event

/-- Association-list lookup with dict-overwrite semantics (latest binding
first). -/
def lookupStr : List (String × String) → String → Option String
  | [], _ => none
  | (k, v) :: rest, key => if k = key then some v else lookupStr rest key

/-- Read a key of a JSON object. -/
def jget : List (String × Json) → String → Option Json
  | [], _ => none
  | (k, v) :: rest, key => if k = key then some v else jget rest key

/-- Whether a JSON value is the string `"text"` (the `item.get("type") ==
"text"` check of agent.py line 577). -/
def isTextTyped : Option Json → Bool
  | some (Json.str s) => s = "text"
  | _ => false

/-- Parse one content item of a ToolResultBlock the way agent.py lines
575-588 do: a `{"type": "text"}` dict yields `json.loads` of its text
(falling back to the raw string on a decode error); other items are
skipped. -/
def sdkItemParsed : Json → Option Json
  | Json.obj kvs =>
    if isTextTyped (jget kvs "type") then
      let txt :=
        match jget kvs "text" with
        | some (Json.str s) => s
        | _ => dumps (Json.obj [])
      some ((loads txt).getD (Json.str txt))
    else none
  | _ => none

/-- The `parsed_output` computed from a ToolResultBlock's content list:
the first text item wins (`break` in the source); `none` when no item
matches. -/
def parseSdkContent : List Json → Option Json
  | [] => none
  | item :: rest =>
    match sdkItemParsed item with
    | some p => some p
    | none => parseSdkContent rest

/-- Handling of one block of an `AssistantMessage` (agent.py lines
609-631): text blocks are streamed, tool-use blocks are recorded in
`tool_calls` and the id-to-name map and yielded as `tool_use` events. -/
def sdkHandleBlockA (st : SdkState) : SdkBlock → SdkState
  | SdkBlock.textB s => ⟨st.tool_calls, st.idToName, st.events ++ [Event.textEv s]⟩
  | SdkBlock.toolUseB id name input =>
    let m := match id with | some i => (i, name) :: st.idToName | none => st.idToName
    ⟨st.tool_calls ++ [(name, input)], m, st.events ++ [Event.toolUseEv name input]⟩
  | SdkBlock.toolResultB _ _ => st

/-- Handling of one block of a `UserMessage` (agent.py lines 561-606):
only ToolResultBlocks with a truthy `tool_use_id` produce a `tool_result`
event, whose name is looked up in the id-to-name map (`"unknown"` when
absent). -/
def sdkHandleBlockU (st : SdkState) : SdkBlock → SdkState
  | SdkBlock.toolResultB (some id) content =>
    let name := (lookupStr st.idToName id).getD "unknown"
    ⟨st.tool_calls, st.idToName, st.events ++ [Event.sdkToolResult name (parseSdkContent content)]⟩
  | _ => st

/-- Handling of one SDK message. -/
def sdkHandleMsg (st : SdkState) : SdkMsg → SdkState
  | SdkMsg.userMessage c => c.foldl sdkHandleBlockU st
  | SdkMsg.assistantMessage c => c.foldl sdkHandleBlockA st
  | SdkMsg.plainMsg => st

/-- Embedding of `ContextGraphAgent.query_stream` (agent.py lines
526-638) driven by a deterministic list of SDK messages: `agent_context`
first, the streamed body, then the final `done` event carrying the
accumulated `tool_calls`. -/
def sdkQueryStream (msgs : List SdkMsg) : List Event :=
  let st := msgs.foldl sdkHandleMsg ⟨[], [], []⟩
  Event.agentContext :: st.events ++ [Event.doneEv st.tool_calls]

/-- Ids of the `tool_use` block starts of a chunk list, in order. -/
def startedToolIds : List Chunk → List String
  | [] => []
  | Chunk.contentBlockStart (StartBlock.toolUseStart id _) :: rest => id :: startedToolIds rest
  | _ :: rest => startedToolIds rest

/-- Whether a chunk list contains a `message_stop` chunk. -/
def hasMsgStop : List Chunk → Bool
  | [] => false
  | Chunk.messageStop :: _ => true
  | _ :: rest => hasMsgStop rest

/-- Well-formed streamed message, relative to whether a tool-use block is
currently open: tool-use blocks never nest or interleave with other block
starts, every opened block is closed, and `message_stop`, which closes a
streamed message, is its final chunk. -/
def wfFrom : Bool → List Chunk → Bool
  | b, [] => !b
  | true, Chunk.contentBlockStart _ :: _ => false
  | false, Chunk.contentBlockStart (StartBlock.toolUseStart _ _) :: rest => wfFrom true rest
  | false, Chunk.contentBlockStart _ :: rest => wfFrom false rest
  | b, Chunk.contentBlockDelta _ :: rest => wfFrom b rest
  | _, Chunk.contentBlockStop :: rest => wfFrom false rest
  | true, Chunk.messageStop :: _ => false
  | false, Chunk.messageStop :: rest => rest.isEmpty
  | b, Chunk.otherChunk :: rest => wfFrom b rest

/-- The tool-use ids a chunk list will close, given the possibly open
block of the current state: the open block's id first, then the started
ids of the chunks. -/
def pendingIds (st : LoopChunkState) (chunks : List Chunk) : List String :=
  (match st.cur with
    | some (id, _, _) => [id]
    | none => []) ++ startedToolIds chunks

/-- Concatenation of the `text_delta` fragments of a chunk list. -/
def joinTextDeltas : List Chunk → String
  | [] => ""
  | Chunk.contentBlockDelta (Delta.textDelta s) :: rest => s ++ joinTextDeltas rest
  | _ :: rest => joinTextDeltas rest

/-- Concatenation of the contents of the `text` events of an event list. -/
def joinTextEvents : List Event → String
  | [] => ""
  | Event.textEv s :: rest => s ++ joinTextEvents rest
  | _ :: rest => joinTextEvents rest

/-- Whether an event is a `done` event. -/
def isDoneEv : Event → Bool
  | Event.doneEv _ => true
  | _ => false

/-- Whether an event is a `tool_use` event. -/
def isToolUseEv : Event → Bool
  | Event.toolUseEv _ _ => true
  | _ => false

/-- Number of `done` events in an event list. -/
def countDone (evs : List Event) : Nat :=
  evs.countP (fun e => isDoneEv e)

/-- The (name, input) pairs of the tool-use blocks of an SDK block list,
in order. -/
def toolUsesOfBlocks : List SdkBlock → List (String × Json)
  | [] => []
  | SdkBlock.toolUseB _ name input :: rest => (name, input) :: toolUsesOfBlocks rest
  | _ :: rest => toolUsesOfBlocks rest

/-- The tool calls produced across an SDK message list, in order. -/
def toolUsesOf : List SdkMsg → List (String × Json)
  | [] => []
  | SdkMsg.assistantMessage c :: rest => toolUsesOfBlocks c ++ toolUsesOf rest
  | _ :: rest => toolUsesOf rest

/-- A streamed message whose tool-use input arrives as the two
`input_json_delta` fragments of the JSON text for the object with key
`a` and value `1`. -/
def c1Chunks : List Chunk :=
  [Chunk.contentBlockStart (StartBlock.toolUseStart "tu1" "get_schema"),
   Chunk.contentBlockDelta (Delta.inputJsonDelta "\x7b\"a\""),
   Chunk.contentBlockDelta (Delta.inputJsonDelta ": 1\x7d"),
   Chunk.contentBlockStop,
   Chunk.messageStop]

/-- Deterministic transport stub: the first request streams `c1Chunks`,
every later request streams a bare `message_stop`. -/
def c1Oracle : StreamOracle :=
  fun h => if h.length ≤ 1 then ⟨c1Chunks, false⟩ else ⟨[Chunk.messageStop], false⟩

/-- Deterministic transport stub that streams the partial text
`Based on polic` and then raises a transport error mid-stream. -/
def c3Oracle : StreamOracle :=
  fun _ => ⟨[Chunk.contentBlockDelta (Delta.textDelta "Based on polic")], true⟩

/-- A model response with no tool-use block and stop reason
`max_tokens` (not `end_turn`). -/
def c4Resp : ModelResponse :=
  ⟨[Block.text "hi"], some "max_tokens"⟩

/-- Deterministic transport stub that always answers with `c4Resp`. -/
def c4Oracle : Oracle :=
  fun _ => Except.ok c4Resp

/-- Deterministic streaming stub with no tool use: one text delta, then
`message_stop`. -/
def c4StreamOracle : StreamOracle :=
  fun _ => ⟨[Chunk.contentBlockDelta (Delta.textDelta "hi"), Chunk.messageStop], false⟩

/-- A model response consisting of exactly one tool-use block. -/
def c5Resp : ModelResponse :=
  ⟨[Block.toolUse "t1" "ping" (Json.obj [])], some "tool_use"⟩

/-- Deterministic transport stub that always requests another tool use. -/
def c5Oracle : Oracle :=
  fun _ => Except.ok c5Resp

/-- A handlers table with one normal tool and one always-raising tool. -/
def c6Handlers : Handlers :=
  [("ok_tool", fun _ => HandlerOutcome.ok ⟨[textItem "fine"], false⟩),
   ("bad_tool", fun _ => HandlerOutcome.exn "boom")]

/-- Deterministic streaming stub: the first request streams one complete
tool-use block, every later request a bare `message_stop`. -/
def c7Oracle : StreamOracle :=
  fun h =>
    if h.length ≤ 1 then
      ⟨[Chunk.contentBlockStart (StartBlock.toolUseStart "tu1" "get_schema"),
        Chunk.contentBlockStop, Chunk.messageStop], false⟩
    else ⟨[Chunk.messageStop], false⟩

/-- A handlers table with a single tool `ping`. -/
def c2Handlers : Handlers :=
  [("ping", fun _ => HandlerOutcome.ok ⟨[textItem "pong"], false⟩)]

/-- A model response with one tool-use block with id `t9`. -/
def c2Resp : ModelResponse :=
  ⟨[Block.toolUse "t9" "ping" (Json.obj [])], some "tool_use"⟩

/-- Deterministic transport stub that always answers with `c2Resp`. -/
def c2Oracle : Oracle :=
  fun _ => Except.ok c2Resp

/-- A streamed message with one complete tool-use block with id `t9`. -/
def c2Chunks : List Chunk :=
  [Chunk.contentBlockStart (StartBlock.toolUseStart "t9" "ping"),
   Chunk.contentBlockStop, Chunk.messageStop]

/-- A streamed message whose text arrives in two deltas. -/
def c8Chunks : List Chunk :=
  [Chunk.contentBlockDelta (Delta.textDelta "Hello "),
   Chunk.contentBlockDelta (Delta.textDelta "world"),
   Chunk.messageStop]

/-- The non-streaming response equivalent to `c8Chunks`. -/
def c8Content : List Block :=
  [Block.text "Hello world"]

theorem query_result (oracle : Oracle) (hist : List Turn) (message : String) :
    (query oracle hist message).result = oracle (hist ++ [userTurn message]) := by
  cases h : oracle (hist ++ [userTurn message]) <;> simp [query, h]

theorem query_hist_error (oracle : Oracle) (hist : List Turn) (message : String)
    (h : oracle (hist ++ [userTurn message]) = Except.error ()) :
    (query oracle hist message).hist = hist := by
  simp [query, h]

theorem processBlocks_text (handlers : Handlers) :
    ∀ (content : List Block) (acc : TurnAcc),
      (processBlocks handlers acc content).response_text = acc.response_text ++ joinTextBlocks content
  | [], acc => by simp [processBlocks, joinTextBlocks]
  | Block.text s :: rest, acc => by
    simp [processBlocks, joinTextBlocks, processBlocks_text handlers rest]
    simp [String.append_assoc]
  | Block.toolUse id name input :: rest, acc => by
    simp [processBlocks, joinTextBlocks, processBlocks_text handlers rest]
  | Block.toolResult i c e :: rest, acc => by
    simp [processBlocks, joinTextBlocks, processBlocks_text handlers rest]

theorem resultIds_append : ∀ (xs ys : List Block), resultIds (xs ++ ys) = resultIds xs ++ resultIds ys
  | [], ys => by simp [resultIds]
  | Block.text s :: xs, ys => by simp [resultIds, resultIds_append xs ys]
  | Block.toolUse i n j :: xs, ys => by simp [resultIds, resultIds_append xs ys]
  | Block.toolResult i c e :: xs, ys => by simp [resultIds, resultIds_append xs ys]

theorem processBlocks_resultIds (handlers : Handlers) :
    ∀ (content : List Block) (acc : TurnAcc),
      resultIds (processBlocks handlers acc content).tool_results =
        resultIds acc.tool_results ++ toolUseIds content
  | [], acc => by simp [processBlocks, toolUseIds]
  | Block.text s :: rest, acc => by
    simp [processBlocks, toolUseIds, processBlocks_resultIds handlers rest]
  | Block.toolUse id name input :: rest, acc => by
    simp [processBlocks, toolUseIds, processBlocks_resultIds handlers rest]
    simp [resultIds_append, resultIds]
  | Block.toolResult i c e :: rest, acc => by
    simp [processBlocks, toolUseIds, processBlocks_resultIds handlers rest]

theorem processBlocks_hasTU (handlers : Handlers) :
    ∀ (content : List Block) (acc : TurnAcc),
      (processBlocks handlers acc content).has_tool_use =
        (acc.has_tool_use || !(toolUseIds content).isEmpty)
  | [], acc => by simp [processBlocks, toolUseIds]
  | Block.text s :: rest, acc => by
    simp [processBlocks, toolUseIds, processBlocks_hasTU handlers rest]
  | Block.toolUse id name input :: rest, acc => by
    simp [processBlocks, toolUseIds, processBlocks_hasTU handlers rest]
  | Block.toolResult i c e :: rest, acc => by
    simp [processBlocks, toolUseIds, processBlocks_hasTU handlers rest]

theorem processBlocks_results_len (handlers : Handlers) :
    ∀ (content : List Block) (acc : TurnAcc),
      (processBlocks handlers acc content).tool_results.length =
        acc.tool_results.length + (toolUseIds content).length
  | [], acc => by simp [processBlocks, toolUseIds]
  | Block.text s :: rest, acc => by
    simp [processBlocks, toolUseIds, processBlocks_results_len handlers rest]
  | Block.toolUse id name input :: rest, acc => by
    simp [processBlocks, toolUseIds, processBlocks_results_len handlers rest]
    omega
  | Block.toolResult i c e :: rest, acc => by
    simp [processBlocks, toolUseIds, processBlocks_results_len handlers rest]

theorem runLoopAux_requests_le (oracle : Oracle) (handlers : Handlers) (message : String) :
    ∀ (fuel iter : Nat) (hist : List Turn) (text : String) (calls : List (String × Json)) (reqs : Nat),
      (runLoopAux oracle handlers message fuel iter hist text calls reqs).requests ≤ reqs + fuel
  | 0, iter, hist, text, calls, reqs => by simp [runLoopAux]
  | Nat.succ fuel, iter, hist, text, calls, reqs => by
    simp only [runLoopAux]
    set s := loopStep oracle handlers (if iter = 0 then message else "") hist text calls with hs
    by_cases h1 : s.raised
    · simp [h1]
    · by_cases h2 : s.stop
      · simp [h1, h2]
      · simp only [h1, h2, Bool.false_eq_true, if_false]
        have := runLoopAux_requests_le oracle handlers message fuel (iter + 1)
          s.hist s.text s.calls (reqs + 1)
        omega

theorem loopStep_tool_branch (oracle : Oracle) (handlers : Handlers) (message : String)
    (hist : List Turn) (text : String) (calls : List (String × Json)) (resp : ModelResponse)
    (hok : oracle (hist ++ [userTurn message]) = Except.ok resp)
    (hne : toolUseIds resp.content ≠ []) :
    (loopStep oracle handlers message hist text calls).stop = false ∧
    (loopStep oracle handlers message hist text calls).raised = false ∧
    (loopStep oracle handlers message hist text calls).hist =
      (query oracle hist message).hist ++
        [toolResultsTurn (processBlocks handlers ⟨text, calls, false, []⟩ resp.content).tool_results] ∧
    (loopStep oracle handlers message hist text calls).text =
      (processBlocks handlers ⟨text, calls, false, []⟩ resp.content).response_text ∧
    (loopStep oracle handlers message hist text calls).calls =
      (processBlocks handlers ⟨text, calls, false, []⟩ resp.content).tool_calls := by
  have hq : (query oracle hist message).result = Except.ok resp := by
    rw [query_result, hok]
  have hTU : (processBlocks handlers ⟨text, calls, false, []⟩ resp.content).has_tool_use = true := by
    rw [processBlocks_hasTU]
    cases h : toolUseIds resp.content with
    | nil => exact absurd h hne
    | cons a l => simp
  have hlen := processBlocks_results_len handlers resp.content ⟨text, calls, false, []⟩
  have hres : (processBlocks handlers ⟨text, calls, false, []⟩ resp.content).tool_results.isEmpty = false := by
    have hlne : (toolUseIds resp.content).length ≠ 0 := by
      intro h0
      exact hne (List.length_eq_zero.mp h0)
    cases h : (processBlocks handlers ⟨text, calls, false, []⟩ resp.content).tool_results with
    | nil => rw [h] at hlen; simp at hlen; omega
    | cons a l => simp
  simp only [loopStep, hq]
  simp [hTU, hres]

theorem loopStep_no_tool (oracle : Oracle) (handlers : Handlers) (message : String)
    (hist : List Turn) (text : String) (calls : List (String × Json)) (resp : ModelResponse)
    (hok : oracle (hist ++ [userTurn message]) = Except.ok resp)
    (hnone : toolUseIds resp.content = []) :
    (loopStep oracle handlers message hist text calls).raised = false ∧
    (loopStep oracle handlers message hist text calls).stop =
      decide (resp.stop_reason = some "end_turn") ∧
    (loopStep oracle handlers message hist text calls).hist = (query oracle hist message).hist ∧
    (loopStep oracle handlers message hist text calls).text =
      (processBlocks handlers ⟨text, calls, false, []⟩ resp.content).response_text := by
  have hq : (query oracle hist message).result = Except.ok resp := by
    rw [query_result, hok]
  have hTU : (processBlocks handlers ⟨text, calls, false, []⟩ resp.content).has_tool_use = false := by
    rw [processBlocks_hasTU]
    simp [hnone]
  simp only [loopStep, hq]
  by_cases hsr : resp.stop_reason = some "end_turn" <;> simp [hTU, hsr]

theorem runLoopAux_all_tools (oracle : Oracle) (handlers : Handlers) (message : String)
    (htool : ∀ h, ∃ resp, oracle h = Except.ok resp ∧ toolUseIds resp.content ≠ []) :
    ∀ (fuel iter : Nat) (hist : List Turn) (text : String) (calls : List (String × Json)) (reqs : Nat),
      (runLoopAux oracle handlers message fuel iter hist text calls reqs).requests = reqs + fuel ∧
      (runLoopAux oracle handlers message fuel iter hist text calls reqs).raised = false
  | 0, iter, hist, text, calls, reqs => by simp [runLoopAux]
  | Nat.succ fuel, iter, hist, text, calls, reqs => by
    obtain ⟨resp, hok, hne⟩ := htool (hist ++ [userTurn (if iter = 0 then message else "")])
    obtain ⟨h1, h2, _⟩ :=
      loopStep_tool_branch oracle handlers (if iter = 0 then message else "") hist text calls resp hok hne
    simp only [runLoopAux, h1, h2, Bool.false_eq_true, if_false]
    have := runLoopAux_all_tools oracle handlers message htool fuel (iter + 1)
      (loopStep oracle handlers (if iter = 0 then message else "") hist text calls).hist
      (loopStep oracle handlers (if iter = 0 then message else "") hist text calls).text
      (loopStep oracle handlers (if iter = 0 then message else "") hist text calls).calls
      (reqs + 1)
    exact ⟨by omega, this.2⟩

theorem runLoopAux_budget (oracle : Oracle) (handlers : Handlers) (message : String)
    (hresp : ∀ h, ∃ resp, oracle h = Except.ok resp ∧ toolUseIds resp.content = [] ∧
      resp.stop_reason ≠ some "end_turn") :
    ∀ (fuel iter : Nat) (hist : List Turn) (text : String) (calls : List (String × Json)) (reqs : Nat),
      (runLoopAux oracle handlers message fuel iter hist text calls reqs).requests = reqs + fuel
  | 0, iter, hist, text, calls, reqs => by simp [runLoopAux]
  | Nat.succ fuel, iter, hist, text, calls, reqs => by
    obtain ⟨resp, hok, hnone, hsr⟩ := hresp (hist ++ [userTurn (if iter = 0 then message else "")])
    obtain ⟨h1, h2, _⟩ :=
      loopStep_no_tool oracle handlers (if iter = 0 then message else "") hist text calls resp hok hnone
    have h2f : (loopStep oracle handlers (if iter = 0 then message else "") hist text calls).stop = false := by
      rw [h2]; simp [hsr]
    simp only [runLoopAux, h1, h2f, Bool.false_eq_true, if_false]
    have := runLoopAux_budget oracle handlers message hresp fuel (iter + 1)
      (loopStep oracle handlers (if iter = 0 then message else "") hist text calls).hist
      (loopStep oracle handlers (if iter = 0 then message else "") hist text calls).text
      (loopStep oracle handlers (if iter = 0 then message else "") hist text calls).calls
      (reqs + 1)
    omega

theorem runLoopAux_no_text (oracle : Oracle) (handlers : Handlers) (message : String)
    (hempty : ∀ h resp, oracle h = Except.ok resp → joinTextBlocks resp.content = "") :
    ∀ (fuel iter : Nat) (hist : List Turn) (text : String) (calls : List (String × Json)) (reqs : Nat),
      (runLoopAux oracle handlers message fuel iter hist text calls reqs).response = text
  | 0, iter, hist, text, calls, reqs => by simp [runLoopAux]
  | Nat.succ fuel, iter, hist, text, calls, reqs => by
    have htext : (loopStep oracle handlers (if iter = 0 then message else "") hist text calls).text = text := by
      cases hoc : oracle (hist ++ [userTurn (if iter = 0 then message else "")]) with
      | error e =>
        have hq : (query oracle hist (if iter = 0 then message else "")).result = Except.error e := by
          rw [query_result, hoc]
        simp only [loopStep, hq]
      | ok resp =>
        have hq : (query oracle hist (if iter = 0 then message else "")).result = Except.ok resp := by
          rw [query_result, hoc]
        have hjoin := hempty _ resp hoc
        have hpt := processBlocks_text handlers resp.content ⟨text, calls, false, []⟩
        rw [hjoin] at hpt
        simp only [loopStep, hq]
        by_cases hc : ((processBlocks handlers ⟨text, calls, false, []⟩ resp.content).has_tool_use &&
            !(processBlocks handlers ⟨text, calls, false, []⟩ resp.content).tool_results.isEmpty) = true
        · simp [hc, hpt]
        · by_cases hsr : resp.stop_reason = some "end_turn" <;> simp [hc, hsr, hpt]
    simp only [runLoopAux]
    by_cases h1 : (loopStep oracle handlers (if iter = 0 then message else "") hist text calls).raised
    · simp [h1, htext]
    · by_cases h2 : (loopStep oracle handlers (if iter = 0 then message else "") hist text calls).stop
      · simp [h1, h2, htext]
      · simp only [h1, h2, Bool.false_eq_true, if_false]
        rw [runLoopAux_no_text oracle handlers message hempty fuel (iter + 1) _ _ _ _]
        exact htext

theorem joinTextEvents_append : ∀ (xs ys : List Event),
    joinTextEvents (xs ++ ys) = joinTextEvents xs ++ joinTextEvents ys
  | [], ys => by simp [joinTextEvents]
  | Event.agentContext :: xs, ys => by simp [joinTextEvents, joinTextEvents_append xs ys]
  | Event.textEv s :: xs, ys => by
    simp [joinTextEvents, joinTextEvents_append xs ys, String.append_assoc]
  | Event.toolUseEv n i :: xs, ys => by simp [joinTextEvents, joinTextEvents_append xs ys]
  | Event.toolResultEv n o :: xs, ys => by simp [joinTextEvents, joinTextEvents_append xs ys]
  | Event.sdkToolResult n o :: xs, ys => by simp [joinTextEvents, joinTextEvents_append xs ys]
  | Event.doneEv tc :: xs, ys => by simp [joinTextEvents, joinTextEvents_append xs ys]

theorem countDone_append (xs ys : List Event) :
    countDone (xs ++ ys) = countDone xs + countDone ys := by
  simp [countDone, List.countP_append]

theorem countDone_nil : countDone [] = 0 := by
  simp [countDone]

theorem countDone_cons (e : Event) (evs : List Event) :
    countDone (e :: evs) = countDone evs + (if isDoneEv e then 1 else 0) := by
  simp [countDone, List.countP_cons]

theorem runIterChunks_done (handlers : Handlers) :
    ∀ (chunks : List Chunk) (qAcc : List Block) (st : LoopChunkState) (hist : List Turn)
      (evs : List Event),
      countDone (runIterChunks handlers chunks qAcc st hist evs).events = countDone evs
  | [], qAcc, st, hist, evs => by simp [runIterChunks]
  | Chunk.contentBlockStart (StartBlock.toolUseStart id name) :: rest, qAcc, st, hist, evs => by
    simp [runIterChunks, queryStreamYield, loopHandleChunk, runIterChunks_done handlers rest,
      countDone_append, countDone_cons, countDone_nil, isDoneEv]
  | Chunk.contentBlockStart StartBlock.textStart :: rest, qAcc, st, hist, evs => by
    simp [runIterChunks, queryStreamYield, loopHandleChunk, runIterChunks_done handlers rest]
  | Chunk.contentBlockStart StartBlock.otherStart :: rest, qAcc, st, hist, evs => by
    simp [runIterChunks, queryStreamYield, loopHandleChunk, runIterChunks_done handlers rest]
  | Chunk.contentBlockDelta (Delta.textDelta s) :: rest, qAcc, st, hist, evs => by
    simp [runIterChunks, queryStreamYield, loopHandleChunk, runIterChunks_done handlers rest,
      countDone_append, countDone_cons, countDone_nil, isDoneEv]
  | Chunk.contentBlockDelta (Delta.inputJsonDelta pj) :: rest, qAcc, st, hist, evs => by
    simp [runIterChunks, queryStreamYield, runIterChunks_done handlers rest]
  | Chunk.contentBlockDelta Delta.otherDelta :: rest, qAcc, st, hist, evs => by
    simp [runIterChunks, queryStreamYield, runIterChunks_done handlers rest]
  | Chunk.contentBlockStop :: rest, qAcc, st, hist, evs => by
    cases hc : st.cur with
    | none =>
      simp [runIterChunks, queryStreamYield, loopHandleChunk, hc, runIterChunks_done handlers rest]
    | some t =>
      obtain ⟨id, name, input⟩ := t
      simp [runIterChunks, queryStreamYield, loopHandleChunk, hc, runIterChunks_done handlers rest,
        countDone_append, countDone_cons, countDone_nil, isDoneEv]
  | Chunk.messageStop :: rest, qAcc, st, hist, evs => by
    by_cases hc : (st.has_tool_use && !st.tool_results.isEmpty) = true <;>
      simp [runIterChunks, queryStreamYield, loopHandleChunk, hc, runIterChunks_done handlers rest]
  | Chunk.otherChunk :: rest, qAcc, st, hist, evs => by
    simp [runIterChunks, queryStreamYield, loopHandleChunk, runIterChunks_done handlers rest]

theorem runIterChunks_start_tool (handlers : Handlers) (id name : String) (rest : List Chunk)
    (qAcc : List Block) (st : LoopChunkState) (hist : List Turn) (evs : List Event) :
    runIterChunks handlers (Chunk.contentBlockStart (StartBlock.toolUseStart id name) :: rest)
        qAcc st hist evs =
      runIterChunks handlers rest (qAcc ++ [Block.toolUse id name (Json.obj [])])
        ⟨some (id, name, Json.obj []), st.tool_results, true, st.dispatches⟩ hist
        (evs ++ [Event.toolUseEv name (Json.obj [])]) := rfl

theorem runIterChunks_start_text (handlers : Handlers) (rest : List Chunk)
    (qAcc : List Block) (st : LoopChunkState) (hist : List Turn) (evs : List Event) :
    runIterChunks handlers (Chunk.contentBlockStart StartBlock.textStart :: rest) qAcc st hist evs =
      runIterChunks handlers rest qAcc st hist (evs ++ []) := rfl

theorem runIterChunks_start_other (handlers : Handlers) (rest : List Chunk)
    (qAcc : List Block) (st : LoopChunkState) (hist : List Turn) (evs : List Event) :
    runIterChunks handlers (Chunk.contentBlockStart StartBlock.otherStart :: rest) qAcc st hist evs =
      runIterChunks handlers rest qAcc st hist (evs ++ []) := rfl

theorem runIterChunks_delta_text (handlers : Handlers) (s : String) (rest : List Chunk)
    (qAcc : List Block) (st : LoopChunkState) (hist : List Turn) (evs : List Event) :
    runIterChunks handlers (Chunk.contentBlockDelta (Delta.textDelta s) :: rest) qAcc st hist evs =
      runIterChunks handlers rest (qAcc ++ [Block.text s]) st hist (evs ++ [Event.textEv s]) := rfl

theorem runIterChunks_delta_input (handlers : Handlers) (pj : String) (rest : List Chunk)
    (qAcc : List Block) (st : LoopChunkState) (hist : List Turn) (evs : List Event) :
    runIterChunks handlers (Chunk.contentBlockDelta (Delta.inputJsonDelta pj) :: rest) qAcc st hist evs =
      runIterChunks handlers rest qAcc st hist evs := rfl

theorem runIterChunks_delta_other (handlers : Handlers) (rest : List Chunk)
    (qAcc : List Block) (st : LoopChunkState) (hist : List Turn) (evs : List Event) :
    runIterChunks handlers (Chunk.contentBlockDelta Delta.otherDelta :: rest) qAcc st hist evs =
      runIterChunks handlers rest qAcc st hist evs := rfl

theorem runIterChunks_stop_some (handlers : Handlers) (id name : String) (input : Json)
    (rest : List Chunk) (qAcc : List Block) (tr : List Block) (htu : Bool)
    (disp : List (String × Json)) (hist : List Turn) (evs : List Event) :
    runIterChunks handlers (Chunk.contentBlockStop :: rest) qAcc
        ⟨some (id, name, input), tr, htu, disp⟩ hist evs =
      runIterChunks handlers rest qAcc
        ⟨none,
          tr ++ [Block.toolResult id (execute_tool handlers name input).content
            (execute_tool handlers name input).is_error],
          htu, disp ++ [(name, input)]⟩ hist
        (evs ++ [Event.toolResultEv name (execute_tool handlers name input)]) := rfl

theorem runIterChunks_stop_none (handlers : Handlers) (rest : List Chunk) (qAcc : List Block)
    (tr : List Block) (htu : Bool) (disp : List (String × Json)) (hist : List Turn)
    (evs : List Event) :
    runIterChunks handlers (Chunk.contentBlockStop :: rest) qAcc ⟨none, tr, htu, disp⟩ hist evs =
      runIterChunks handlers rest qAcc ⟨none, tr, htu, disp⟩ hist (evs ++ []) := rfl

theorem runIterChunks_msgStop (handlers : Handlers) (rest : List Chunk) (qAcc : List Block)
    (st : LoopChunkState) (hist : List Turn) (evs : List Event) :
    runIterChunks handlers (Chunk.messageStop :: rest) qAcc st hist evs =
      if (st.has_tool_use && !st.tool_results.isEmpty) = true then
        runIterChunks handlers rest qAcc st (hist ++ [toolResultsTurn st.tool_results]) (evs ++ [])
      else ⟨qAcc, st, hist, evs ++ [], true⟩ := by
  by_cases hc : (st.has_tool_use && !st.tool_results.isEmpty) = true <;>
    simp only [runIterChunks, queryStreamYield, queryStreamAccum, loopHandleChunk, hc, if_true,
      if_false, Bool.false_eq_true]

theorem runIterChunks_otherChunk (handlers : Handlers) (rest : List Chunk) (qAcc : List Block)
    (st : LoopChunkState) (hist : List Turn) (evs : List Event) :
    runIterChunks handlers (Chunk.otherChunk :: rest) qAcc st hist evs =
      runIterChunks handlers rest qAcc st hist (evs ++ []) := rfl

theorem runIterChunks_wf (handlers : Handlers) :
    ∀ (chunks : List Chunk) (qAcc : List Block) (st : LoopChunkState) (hist : List Turn)
      (evs : List Event),
      wfFrom st.cur.isSome chunks = true →
      (resultIds (runIterChunks handlers chunks qAcc st hist evs).st.tool_results =
          resultIds st.tool_results ++ pendingIds st chunks) ∧
      ((runIterChunks handlers chunks qAcc st hist evs).st.has_tool_use =
          (st.has_tool_use || !(startedToolIds chunks).isEmpty)) ∧
      ((runIterChunks handlers chunks qAcc st hist evs).qAcc =
          List.foldl queryStreamAccum qAcc chunks) ∧
      (joinTextEvents (runIterChunks handlers chunks qAcc st hist evs).events =
          joinTextEvents evs ++ joinTextDeltas chunks) ∧
      (hasMsgStop chunks = true →
        (runIterChunks handlers chunks qAcc st hist evs).hist =
          hist ++
            (if (runIterChunks handlers chunks qAcc st hist evs).st.has_tool_use &&
                !(runIterChunks handlers chunks qAcc st hist evs).st.tool_results.isEmpty then
              [toolResultsTurn (runIterChunks handlers chunks qAcc st hist evs).st.tool_results]
            else []) ∧
        (runIterChunks handlers chunks qAcc st hist evs).returned =
          !((runIterChunks handlers chunks qAcc st hist evs).st.has_tool_use &&
            !(runIterChunks handlers chunks qAcc st hist evs).st.tool_results.isEmpty)) ∧
      (hasMsgStop chunks = false →
        (runIterChunks handlers chunks qAcc st hist evs).hist = hist ∧
        (runIterChunks handlers chunks qAcc st hist evs).returned = false)
  | [], qAcc, st, hist, evs, hwf => by
    cases hc : st.cur with
    | some t => simp [hc, wfFrom] at hwf
    | none =>
      simp [runIterChunks, pendingIds, hc, startedToolIds, joinTextDeltas, hasMsgStop]
  | Chunk.contentBlockStart (StartBlock.toolUseStart id name) :: rest, qAcc, st, hist, evs, hwf => by
    cases hc : st.cur with
    | some t => simp [hc, wfFrom] at hwf
    | none =>
      have hwf2 : wfFrom true rest = true := by simpa [hc, wfFrom] using hwf
      rw [runIterChunks_start_tool]
      obtain ⟨i1, i2, i3, i4, i5, i6⟩ := runIterChunks_wf handlers rest
        (qAcc ++ [Block.toolUse id name (Json.obj [])])
        ⟨some (id, name, Json.obj []), st.tool_results, true, st.dispatches⟩ hist
        (evs ++ [Event.toolUseEv name (Json.obj [])]) (by simpa using hwf2)
      refine ⟨?_, ?_, ?_, ?_, ?_, ?_⟩
      · rw [i1]; simp [pendingIds, hc, startedToolIds]
      · rw [i2]; simp [startedToolIds]
      · rw [i3]; simp [List.foldl_cons, queryStreamAccum]
      · rw [i4, joinTextEvents_append]; simp [joinTextEvents, joinTextDeltas]
      · intro hms
        exact i5 (by simpa [hasMsgStop] using hms)
      · intro hms
        exact i6 (by simpa [hasMsgStop] using hms)
  | Chunk.contentBlockStart StartBlock.textStart :: rest, qAcc, st, hist, evs, hwf => by
    cases hc : st.cur with
    | some t => simp [hc, wfFrom] at hwf
    | none =>
      have hwf2 : wfFrom false rest = true := by simpa [hc, wfFrom] using hwf
      rw [runIterChunks_start_text]
      obtain ⟨i1, i2, i3, i4, i5, i6⟩ := runIterChunks_wf handlers rest qAcc st hist (evs ++ [])
        (by simpa [hc] using hwf2)
      refine ⟨?_, ?_, ?_, ?_, ?_, ?_⟩
      · rw [i1]; simp [pendingIds, hc, startedToolIds]
      · rw [i2]; simp [startedToolIds]
      · rw [i3]; simp [List.foldl_cons, queryStreamAccum]
      · rw [i4, joinTextEvents_append]; simp [joinTextEvents, joinTextDeltas]
      · intro hms
        exact i5 (by simpa [hasMsgStop] using hms)
      · intro hms
        exact i6 (by simpa [hasMsgStop] using hms)
  | Chunk.contentBlockStart StartBlock.otherStart :: rest, qAcc, st, hist, evs, hwf => by
    cases hc : st.cur with
    | some t => simp [hc, wfFrom] at hwf
    | none =>
      have hwf2 : wfFrom false rest = true := by simpa [hc, wfFrom] using hwf
      rw [runIterChunks_start_other]
      obtain ⟨i1, i2, i3, i4, i5, i6⟩ := runIterChunks_wf handlers rest qAcc st hist (evs ++ [])
        (by simpa [hc] using hwf2)
      refine ⟨?_, ?_, ?_, ?_, ?_, ?_⟩
      · rw [i1]; simp [pendingIds, hc, startedToolIds]
      · rw [i2]; simp [startedToolIds]
      · rw [i3]; simp [List.foldl_cons, queryStreamAccum]
      · rw [i4, joinTextEvents_append]; simp [joinTextEvents, joinTextDeltas]
      · intro hms
        exact i5 (by simpa [hasMsgStop] using hms)
      · intro hms
        exact i6 (by simpa [hasMsgStop] using hms)
  | Chunk.contentBlockDelta (Delta.textDelta s) :: rest, qAcc, st, hist, evs, hwf => by
    have hwf2 : wfFrom st.cur.isSome rest = true := by simpa [wfFrom] using hwf
    rw [runIterChunks_delta_text]
    obtain ⟨i1, i2, i3, i4, i5, i6⟩ := runIterChunks_wf handlers rest (qAcc ++ [Block.text s])
      st hist (evs ++ [Event.textEv s]) hwf2
    refine ⟨?_, ?_, ?_, ?_, ?_, ?_⟩
    · rw [i1]; simp [pendingIds, startedToolIds]
    · rw [i2]; simp [startedToolIds]
    · rw [i3]; simp [List.foldl_cons, queryStreamAccum]
    · rw [i4, joinTextEvents_append]
      simp [joinTextEvents, joinTextDeltas, String.append_assoc]
    · intro hms
      exact i5 (by simpa [hasMsgStop] using hms)
    · intro hms
      exact i6 (by simpa [hasMsgStop] using hms)
  | Chunk.contentBlockDelta (Delta.inputJsonDelta pj) :: rest, qAcc, st, hist, evs, hwf => by
    have hwf2 : wfFrom st.cur.isSome rest = true := by simpa [wfFrom] using hwf
    rw [runIterChunks_delta_input]
    obtain ⟨i1, i2, i3, i4, i5, i6⟩ := runIterChunks_wf handlers rest qAcc st hist evs hwf2
    refine ⟨?_, ?_, ?_, ?_, ?_, ?_⟩
    · rw [i1]; simp [pendingIds, startedToolIds]
    · rw [i2]; simp [startedToolIds]
    · rw [i3]; simp [List.foldl_cons, queryStreamAccum]
    · rw [i4]; simp [joinTextDeltas]
    · intro hms
      exact i5 (by simpa [hasMsgStop] using hms)
    · intro hms
      exact i6 (by simpa [hasMsgStop] using hms)
  | Chunk.contentBlockDelta Delta.otherDelta :: rest, qAcc, st, hist, evs, hwf => by
    have hwf2 : wfFrom st.cur.isSome rest = true := by simpa [wfFrom] using hwf
    rw [runIterChunks_delta_other]
    obtain ⟨i1, i2, i3, i4, i5, i6⟩ := runIterChunks_wf handlers rest qAcc st hist evs hwf2
    refine ⟨?_, ?_, ?_, ?_, ?_, ?_⟩
    · rw [i1]; simp [pendingIds, startedToolIds]
    · rw [i2]; simp [startedToolIds]
    · rw [i3]; simp [List.foldl_cons, queryStreamAccum]
    · rw [i4]; simp [joinTextDeltas]
    · intro hms
      exact i5 (by simpa [hasMsgStop] using hms)
    · intro hms
      exact i6 (by simpa [hasMsgStop] using hms)
  | Chunk.contentBlockStop :: rest, qAcc, st, hist, evs, hwf => by
    obtain ⟨cur, tr, htu, disp⟩ := st
    cases cur with
    | none =>
      have hwf2 : wfFrom false rest = true := by simpa [wfFrom] using hwf
      rw [runIterChunks_stop_none]
      obtain ⟨i1, i2, i3, i4, i5, i6⟩ := runIterChunks_wf handlers rest qAcc
        ⟨none, tr, htu, disp⟩ hist (evs ++ []) (by simpa using hwf2)
      refine ⟨?_, ?_, ?_, ?_, ?_, ?_⟩
      · rw [i1]; simp [pendingIds, startedToolIds]
      · rw [i2]; simp [startedToolIds]
      · rw [i3]; simp [List.foldl_cons, queryStreamAccum]
      · rw [i4, joinTextEvents_append]; simp [joinTextEvents, joinTextDeltas]
      · intro hms
        exact i5 (by simpa [hasMsgStop] using hms)
      · intro hms
        exact i6 (by simpa [hasMsgStop] using hms)
    | some t =>
      obtain ⟨id, name, input⟩ := t
      have hwf2 : wfFrom false rest = true := by simpa [wfFrom] using hwf
      rw [runIterChunks_stop_some]
      obtain ⟨i1, i2, i3, i4, i5, i6⟩ := runIterChunks_wf handlers rest qAcc
        ⟨none,
          tr ++ [Block.toolResult id (execute_tool handlers name input).content
            (execute_tool handlers name input).is_error],
          htu, disp ++ [(name, input)]⟩ hist
        (evs ++ [Event.toolResultEv name (execute_tool handlers name input)])
        (by simpa using hwf2)
      refine ⟨?_, ?_, ?_, ?_, ?_, ?_⟩
      · rw [i1]
        simp [pendingIds, startedToolIds, resultIds_append, resultIds]
      · rw [i2]; simp [startedToolIds]
      · rw [i3]; simp [List.foldl_cons, queryStreamAccum]
      · rw [i4, joinTextEvents_append]; simp [joinTextEvents, joinTextDeltas]
      · intro hms
        exact i5 (by simpa [hasMsgStop] using hms)
      · intro hms
        exact i6 (by simpa [hasMsgStop] using hms)
  | Chunk.messageStop :: rest, qAcc, st, hist, evs, hwf => by
    cases hc : st.cur with
    | some t => simp [hc, wfFrom] at hwf
    | none =>
      have hrest : rest = [] := by simpa [hc, wfFrom, List.isEmpty_iff] using hwf
      subst hrest
      rw [runIterChunks_msgStop]
      by_cases hcond : (st.has_tool_use && !st.tool_results.isEmpty) = true
      · rw [if_pos hcond]
        simp only [runIterChunks]
        refine ⟨?_, ?_, ?_, ?_, ?_, ?_⟩
        · simp [pendingIds, hc, startedToolIds]
        · simp [startedToolIds]
        · simp [List.foldl_cons, queryStreamAccum]
        · simp [joinTextEvents_append, joinTextEvents, joinTextDeltas]
        · intro hms
          simp [hcond]
        · intro hms
          simp [hasMsgStop] at hms
      · rw [if_neg hcond]
        refine ⟨?_, ?_, ?_, ?_, ?_, ?_⟩
        · simp [pendingIds, hc, startedToolIds]
        · simp [startedToolIds]
        · simp [List.foldl_cons, queryStreamAccum]
        · simp [joinTextEvents_append, joinTextEvents, joinTextDeltas]
        · intro hms
          constructor
          · simp [hcond]
          · simp only [Bool.not_eq_true] at hcond
            simp [hcond]
        · intro hms
          simp [hasMsgStop] at hms
  | Chunk.otherChunk :: rest, qAcc, st, hist, evs, hwf => by
    have hwf2 : wfFrom st.cur.isSome rest = true := by simpa [wfFrom] using hwf
    rw [runIterChunks_otherChunk]
    obtain ⟨i1, i2, i3, i4, i5, i6⟩ := runIterChunks_wf handlers rest qAcc st hist (evs ++ []) hwf2
    refine ⟨?_, ?_, ?_, ?_, ?_, ?_⟩
    · rw [i1]; simp [pendingIds, startedToolIds]
    · rw [i2]; simp [startedToolIds]
    · rw [i3]; simp [List.foldl_cons, queryStreamAccum]
    · rw [i4, joinTextEvents_append]; simp [joinTextEvents, joinTextDeltas]
    · intro hms
      exact i5 (by simpa [hasMsgStop] using hms)
    · intro hms
      exact i6 (by simpa [hasMsgStop] using hms)

theorem runIterChunks_no_stop (handlers : Handlers) :
    ∀ (chunks : List Chunk) (qAcc : List Block) (st : LoopChunkState) (hist : List Turn)
      (evs : List Event),
      hasMsgStop chunks = false →
      ((runIterChunks handlers chunks qAcc st hist evs).returned = false ∧
       (runIterChunks handlers chunks qAcc st hist evs).hist = hist ∧
       joinTextEvents (runIterChunks handlers chunks qAcc st hist evs).events =
         joinTextEvents evs ++ joinTextDeltas chunks)
  | [], qAcc, st, hist, evs, hms => by
    simp [runIterChunks, joinTextDeltas]
  | Chunk.contentBlockStart (StartBlock.toolUseStart id name) :: rest, qAcc, st, hist, evs, hms => by
    rw [runIterChunks_start_tool]
    obtain ⟨i1, i2, i3⟩ := runIterChunks_no_stop handlers rest
      (qAcc ++ [Block.toolUse id name (Json.obj [])])
      ⟨some (id, name, Json.obj []), st.tool_results, true, st.dispatches⟩ hist
      (evs ++ [Event.toolUseEv name (Json.obj [])]) (by simpa [hasMsgStop] using hms)
    refine ⟨i1, i2, ?_⟩
    rw [i3, joinTextEvents_append]; simp [joinTextEvents, joinTextDeltas]
  | Chunk.contentBlockStart StartBlock.textStart :: rest, qAcc, st, hist, evs, hms => by
    rw [runIterChunks_start_text]
    obtain ⟨i1, i2, i3⟩ := runIterChunks_no_stop handlers rest qAcc st hist (evs ++ [])
      (by simpa [hasMsgStop] using hms)
    refine ⟨i1, i2, ?_⟩
    rw [i3, joinTextEvents_append]; simp [joinTextEvents, joinTextDeltas]
  | Chunk.contentBlockStart StartBlock.otherStart :: rest, qAcc, st, hist, evs, hms => by
    rw [runIterChunks_start_other]
    obtain ⟨i1, i2, i3⟩ := runIterChunks_no_stop handlers rest qAcc st hist (evs ++ [])
      (by simpa [hasMsgStop] using hms)
    refine ⟨i1, i2, ?_⟩
    rw [i3, joinTextEvents_append]; simp [joinTextEvents, joinTextDeltas]
  | Chunk.contentBlockDelta (Delta.textDelta s) :: rest, qAcc, st, hist, evs, hms => by
    rw [runIterChunks_delta_text]
    obtain ⟨i1, i2, i3⟩ := runIterChunks_no_stop handlers rest (qAcc ++ [Block.text s]) st hist
      (evs ++ [Event.textEv s]) (by simpa [hasMsgStop] using hms)
    refine ⟨i1, i2, ?_⟩
    rw [i3, joinTextEvents_append]
    simp [joinTextEvents, joinTextDeltas, String.append_assoc]
  | Chunk.contentBlockDelta (Delta.inputJsonDelta pj) :: rest, qAcc, st, hist, evs, hms => by
    rw [runIterChunks_delta_input]
    obtain ⟨i1, i2, i3⟩ := runIterChunks_no_stop handlers rest qAcc st hist evs
      (by simpa [hasMsgStop] using hms)
    refine ⟨i1, i2, ?_⟩
    rw [i3]; simp [joinTextDeltas]
  | Chunk.contentBlockDelta Delta.otherDelta :: rest, qAcc, st, hist, evs, hms => by
    rw [runIterChunks_delta_other]
    obtain ⟨i1, i2, i3⟩ := runIterChunks_no_stop handlers rest qAcc st hist evs
      (by simpa [hasMsgStop] using hms)
    refine ⟨i1, i2, ?_⟩
    rw [i3]; simp [joinTextDeltas]
  | Chunk.contentBlockStop :: rest, qAcc, st, hist, evs, hms => by
    obtain ⟨cur, tr, htu, disp⟩ := st
    cases cur with
    | none =>
      rw [runIterChunks_stop_none]
      obtain ⟨i1, i2, i3⟩ := runIterChunks_no_stop handlers rest qAcc ⟨none, tr, htu, disp⟩ hist
        (evs ++ []) (by simpa [hasMsgStop] using hms)
      refine ⟨i1, i2, ?_⟩
      rw [i3, joinTextEvents_append]; simp [joinTextEvents, joinTextDeltas]
    | some t =>
      obtain ⟨id, name, input⟩ := t
      rw [runIterChunks_stop_some]
      obtain ⟨i1, i2, i3⟩ := runIterChunks_no_stop handlers rest qAcc
        ⟨none,
          tr ++ [Block.toolResult id (execute_tool handlers name input).content
            (execute_tool handlers name input).is_error],
          htu, disp ++ [(name, input)]⟩ hist
        (evs ++ [Event.toolResultEv name (execute_tool handlers name input)])
        (by simpa [hasMsgStop] using hms)
      refine ⟨i1, i2, ?_⟩
      rw [i3, joinTextEvents_append]; simp [joinTextEvents, joinTextDeltas]
  | Chunk.messageStop :: rest, qAcc, st, hist, evs, hms => by
    simp [hasMsgStop] at hms
  | Chunk.otherChunk :: rest, qAcc, st, hist, evs, hms => by
    rw [runIterChunks_otherChunk]
    obtain ⟨i1, i2, i3⟩ := runIterChunks_no_stop handlers rest qAcc st hist (evs ++ [])
      (by simpa [hasMsgStop] using hms)
    refine ⟨i1, i2, ?_⟩
    rw [i3, joinTextEvents_append]; simp [joinTextEvents, joinTextDeltas]

theorem runIterChunks_no_tools (handlers : Handlers) :
    ∀ (chunks : List Chunk) (qAcc : List Block) (tr : List Block) (disp : List (String × Json))
      (hist : List Turn) (evs : List Event),
      startedToolIds chunks = [] →
      hasMsgStop chunks = true →
      ((runIterChunks handlers chunks qAcc ⟨none, tr, false, disp⟩ hist evs).returned = true ∧
       (runIterChunks handlers chunks qAcc ⟨none, tr, false, disp⟩ hist evs).hist = hist)
  | [], qAcc, tr, disp, hist, evs, hstart, hms => by
    simp [hasMsgStop] at hms
  | Chunk.contentBlockStart (StartBlock.toolUseStart id name) :: rest, qAcc, tr, disp, hist, evs,
      hstart, hms => by
    simp [startedToolIds] at hstart
  | Chunk.contentBlockStart StartBlock.textStart :: rest, qAcc, tr, disp, hist, evs, hstart, hms => by
    rw [runIterChunks_start_text]
    exact runIterChunks_no_tools handlers rest qAcc tr disp hist (evs ++ [])
      (by simpa [startedToolIds] using hstart) (by simpa [hasMsgStop] using hms)
  | Chunk.contentBlockStart StartBlock.otherStart :: rest, qAcc, tr, disp, hist, evs, hstart, hms => by
    rw [runIterChunks_start_other]
    exact runIterChunks_no_tools handlers rest qAcc tr disp hist (evs ++ [])
      (by simpa [startedToolIds] using hstart) (by simpa [hasMsgStop] using hms)
  | Chunk.contentBlockDelta (Delta.textDelta s) :: rest, qAcc, tr, disp, hist, evs, hstart, hms => by
    rw [runIterChunks_delta_text]
    exact runIterChunks_no_tools handlers rest (qAcc ++ [Block.text s]) tr disp hist
      (evs ++ [Event.textEv s])
      (by simpa [startedToolIds] using hstart) (by simpa [hasMsgStop] using hms)
  | Chunk.contentBlockDelta (Delta.inputJsonDelta pj) :: rest, qAcc, tr, disp, hist, evs, hstart, hms => by
    rw [runIterChunks_delta_input]
    exact runIterChunks_no_tools handlers rest qAcc tr disp hist evs
      (by simpa [startedToolIds] using hstart) (by simpa [hasMsgStop] using hms)
  | Chunk.contentBlockDelta Delta.otherDelta :: rest, qAcc, tr, disp, hist, evs, hstart, hms => by
    rw [runIterChunks_delta_other]
    exact runIterChunks_no_tools handlers rest qAcc tr disp hist evs
      (by simpa [startedToolIds] using hstart) (by simpa [hasMsgStop] using hms)
  | Chunk.contentBlockStop :: rest, qAcc, tr, disp, hist, evs, hstart, hms => by
    rw [runIterChunks_stop_none]
    exact runIterChunks_no_tools handlers rest qAcc tr disp hist (evs ++ [])
      (by simpa [startedToolIds] using hstart) (by simpa [hasMsgStop] using hms)
  | Chunk.messageStop :: rest, qAcc, tr, disp, hist, evs, hstart, hms => by
    rw [runIterChunks_msgStop]
    simp
  | Chunk.otherChunk :: rest, qAcc, tr, disp, hist, evs, hstart, hms => by
    rw [runIterChunks_otherChunk]
    exact runIterChunks_no_tools handlers rest qAcc tr disp hist (evs ++ [])
      (by simpa [startedToolIds] using hstart) (by simpa [hasMsgStop] using hms)

theorem foldl_accum_extends : ∀ (chunks : List Chunk) (qAcc : List Block),
    ∃ ys, List.foldl queryStreamAccum qAcc chunks = qAcc ++ ys
  | [], qAcc => ⟨[], by simp⟩
  | c :: rest, qAcc => by
    obtain ⟨ys, hy⟩ := foldl_accum_extends rest (queryStreamAccum qAcc c)
    cases c with
    | contentBlockStart sb =>
      cases sb with
      | toolUseStart id name =>
        exact ⟨Block.toolUse id name (Json.obj []) :: ys, by
          simpa [List.foldl_cons, queryStreamAccum] using hy⟩
      | textStart => exact ⟨ys, by simpa [List.foldl_cons, queryStreamAccum] using hy⟩
      | otherStart => exact ⟨ys, by simpa [List.foldl_cons, queryStreamAccum] using hy⟩
    | contentBlockDelta d =>
      cases d with
      | textDelta s =>
        exact ⟨Block.text s :: ys, by simpa [List.foldl_cons, queryStreamAccum] using hy⟩
      | inputJsonDelta pj => exact ⟨ys, by simpa [List.foldl_cons, queryStreamAccum] using hy⟩
      | otherDelta => exact ⟨ys, by simpa [List.foldl_cons, queryStreamAccum] using hy⟩
    | contentBlockStop => exact ⟨ys, by simpa [List.foldl_cons, queryStreamAccum] using hy⟩
    | messageStop => exact ⟨ys, by simpa [List.foldl_cons, queryStreamAccum] using hy⟩
    | otherChunk => exact ⟨ys, by simpa [List.foldl_cons, queryStreamAccum] using hy⟩

theorem foldl_accum_ne : ∀ (chunks : List Chunk) (qAcc : List Block),
    startedToolIds chunks ≠ [] →
    List.foldl queryStreamAccum qAcc chunks ≠ []
  | [], qAcc, hne => absurd rfl hne
  | Chunk.contentBlockStart (StartBlock.toolUseStart id name) :: rest, qAcc, hne => by
    obtain ⟨ys, hy⟩ := foldl_accum_extends rest (qAcc ++ [Block.toolUse id name (Json.obj [])])
    rw [List.foldl_cons]
    have : queryStreamAccum qAcc (Chunk.contentBlockStart (StartBlock.toolUseStart id name)) =
        qAcc ++ [Block.toolUse id name (Json.obj [])] := rfl
    rw [this, hy]
    simp
  | Chunk.contentBlockStart StartBlock.textStart :: rest, qAcc, hne =>
    foldl_accum_ne rest qAcc (by simpa [startedToolIds] using hne)
  | Chunk.contentBlockStart StartBlock.otherStart :: rest, qAcc, hne =>
    foldl_accum_ne rest qAcc (by simpa [startedToolIds] using hne)
  | Chunk.contentBlockDelta (Delta.textDelta s) :: rest, qAcc, hne => by
    rw [List.foldl_cons]
    have : queryStreamAccum qAcc (Chunk.contentBlockDelta (Delta.textDelta s)) =
        qAcc ++ [Block.text s] := rfl
    rw [this]
    obtain ⟨ys, hy⟩ := foldl_accum_extends rest (qAcc ++ [Block.text s])
    rw [hy]
    simp
  | Chunk.contentBlockDelta (Delta.inputJsonDelta pj) :: rest, qAcc, hne =>
    foldl_accum_ne rest qAcc (by simpa [startedToolIds] using hne)
  | Chunk.contentBlockDelta Delta.otherDelta :: rest, qAcc, hne =>
    foldl_accum_ne rest qAcc (by simpa [startedToolIds] using hne)
  | Chunk.contentBlockStop :: rest, qAcc, hne =>
    foldl_accum_ne rest qAcc (by simpa [startedToolIds] using hne)
  | Chunk.messageStop :: rest, qAcc, hne =>
    foldl_accum_ne rest qAcc (by simpa [startedToolIds] using hne)
  | Chunk.otherChunk :: rest, qAcc, hne =>
    foldl_accum_ne rest qAcc (by simpa [startedToolIds] using hne)

theorem runStreamIter_events (handlers : Handlers) (resp : StreamResp) (hist : List Turn)
    (message : String) :
    (runStreamIter handlers resp hist message).events =
      (runIterChunks handlers resp.chunks [] initChunkState (hist ++ [userTurn message]) []).events := rfl

theorem runStreamIter_returned (handlers : Handlers) (resp : StreamResp) (hist : List Turn)
    (message : String) :
    (runStreamIter handlers resp hist message).returned =
      (runIterChunks handlers resp.chunks [] initChunkState (hist ++ [userTurn message]) []).returned := rfl

theorem runStreamIter_raised (handlers : Handlers) (resp : StreamResp) (hist : List Turn)
    (message : String) :
    (runStreamIter handlers resp hist message).raised =
      (!(runIterChunks handlers resp.chunks [] initChunkState (hist ++ [userTurn message]) []).returned &&
        resp.errors) := rfl

theorem runStreamIter_done (handlers : Handlers) (resp : StreamResp) (hist : List Turn)
    (message : String) :
    countDone (runStreamIter handlers resp hist message).events = 0 := by
  rw [runStreamIter_events, runIterChunks_done]
  exact countDone_nil

theorem runStreamLoopAux_requests_le (oracle : StreamOracle) (handlers : Handlers) (message : String) :
    ∀ (fuel iter : Nat) (hist : List Turn) (evs : List Event) (reqs : Nat)
      (disp : List (String × Json)),
      (runStreamLoopAux oracle handlers message fuel iter hist evs reqs disp).requests ≤ reqs + fuel
  | 0, iter, hist, evs, reqs, disp => by simp [runStreamLoopAux]
  | Nat.succ fuel, iter, hist, evs, reqs, disp => by
    simp only [runStreamLoopAux]
    set o := runStreamIter handlers
      (oracle (hist ++ [userTurn (if iter = 0 then message else "")])) hist
      (if iter = 0 then message else "") with ho
    by_cases h1 : o.returned
    · simp [h1]
    · by_cases h2 : o.raised
      · simp [h1, h2]
      · simp only [h1, h2, Bool.false_eq_true, if_false]
        have := runStreamLoopAux_requests_le oracle handlers message fuel (iter + 1) o.hist
          (evs ++ o.events) (reqs + 1) (disp ++ o.dispatches)
        omega

theorem runStreamLoopAux_done (oracle : StreamOracle) (handlers : Handlers) (message : String) :
    ∀ (fuel iter : Nat) (hist : List Turn) (evs : List Event) (reqs : Nat)
      (disp : List (String × Json)),
      countDone (runStreamLoopAux oracle handlers message fuel iter hist evs reqs disp).events =
        countDone evs
  | 0, iter, hist, evs, reqs, disp => by simp [runStreamLoopAux]
  | Nat.succ fuel, iter, hist, evs, reqs, disp => by
    simp only [runStreamLoopAux]
    set o := runStreamIter handlers
      (oracle (hist ++ [userTurn (if iter = 0 then message else "")])) hist
      (if iter = 0 then message else "") with ho
    have hdone : countDone o.events = 0 := runStreamIter_done handlers _ hist _
    by_cases h1 : o.returned
    · simp [h1, countDone_append, hdone]
    · by_cases h2 : o.raised
      · simp [h1, h2, countDone_append, hdone]
      · simp only [h1, h2, Bool.false_eq_true, if_false]
        rw [runStreamLoopAux_done oracle handlers message fuel (iter + 1) o.hist
          (evs ++ o.events) (reqs + 1) (disp ++ o.dispatches)]
        rw [countDone_append, hdone]
        omega

theorem sdkBlocksU_calls : ∀ (blocks : List SdkBlock) (st : SdkState),
    (List.foldl sdkHandleBlockU st blocks).tool_calls = st.tool_calls
  | [], st => rfl
  | b :: rest, st => by
    rw [List.foldl_cons, sdkBlocksU_calls rest]
    cases b with
    | textB s => rfl
    | toolUseB id name input => rfl
    | toolResultB id content =>
      cases id with
      | none => rfl
      | some i => rfl

theorem sdkBlocksA_calls : ∀ (blocks : List SdkBlock) (st : SdkState),
    (List.foldl sdkHandleBlockA st blocks).tool_calls = st.tool_calls ++ toolUsesOfBlocks blocks
  | [], st => by simp [toolUsesOfBlocks]
  | SdkBlock.textB s :: rest, st => by
    rw [List.foldl_cons, sdkBlocksA_calls rest]
    simp [sdkHandleBlockA, toolUsesOfBlocks]
  | SdkBlock.toolUseB id name input :: rest, st => by
    rw [List.foldl_cons, sdkBlocksA_calls rest]
    simp [sdkHandleBlockA, toolUsesOfBlocks]
  | SdkBlock.toolResultB id content :: rest, st => by
    rw [List.foldl_cons, sdkBlocksA_calls rest]
    simp [sdkHandleBlockA, toolUsesOfBlocks]

theorem sdkFold_calls : ∀ (msgs : List SdkMsg) (st : SdkState),
    (List.foldl sdkHandleMsg st msgs).tool_calls = st.tool_calls ++ toolUsesOf msgs
  | [], st => by simp [toolUsesOf]
  | SdkMsg.userMessage c :: rest, st => by
    rw [List.foldl_cons, sdkFold_calls rest]
    simp [sdkHandleMsg, sdkBlocksU_calls, toolUsesOf]
  | SdkMsg.assistantMessage c :: rest, st => by
    rw [List.foldl_cons, sdkFold_calls rest]
    simp [sdkHandleMsg, sdkBlocksA_calls, toolUsesOf]
  | SdkMsg.plainMsg :: rest, st => by
    rw [List.foldl_cons, sdkFold_calls rest]
    simp [sdkHandleMsg, toolUsesOf]

theorem sdkBlocksU_done : ∀ (blocks : List SdkBlock) (st : SdkState),
    countDone (List.foldl sdkHandleBlockU st blocks).events = countDone st.events
  | [], st => rfl
  | b :: rest, st => by
    rw [List.foldl_cons, sdkBlocksU_done rest]
    cases b with
    | textB s => rfl
    | toolUseB id name input => rfl
    | toolResultB id content =>
      cases id with
      | none => rfl
      | some i =>
        simp [sdkHandleBlockU, countDone_append, countDone_cons, countDone_nil, isDoneEv]

theorem sdkBlocksA_done : ∀ (blocks : List SdkBlock) (st : SdkState),
    countDone (List.foldl sdkHandleBlockA st blocks).events = countDone st.events
  | [], st => rfl
  | SdkBlock.textB s :: rest, st => by
    rw [List.foldl_cons, sdkBlocksA_done rest]
    simp [sdkHandleBlockA, countDone_append, countDone_cons, countDone_nil, isDoneEv]
  | SdkBlock.toolUseB id name input :: rest, st => by
    rw [List.foldl_cons, sdkBlocksA_done rest]
    simp [sdkHandleBlockA, countDone_append, countDone_cons, countDone_nil, isDoneEv]
  | SdkBlock.toolResultB id content :: rest, st => by
    rw [List.foldl_cons, sdkBlocksA_done rest]
    simp [sdkHandleBlockA]

theorem sdkFold_done : ∀ (msgs : List SdkMsg) (st : SdkState),
    countDone (List.foldl sdkHandleMsg st msgs).events = countDone st.events
  | [], st => rfl
  | SdkMsg.userMessage c :: rest, st => by
    rw [List.foldl_cons, sdkFold_done rest]
    simp [sdkHandleMsg, sdkBlocksU_done]
  | SdkMsg.assistantMessage c :: rest, st => by
    rw [List.foldl_cons, sdkFold_done rest]
    simp [sdkHandleMsg, sdkBlocksA_done]
  | SdkMsg.plainMsg :: rest, st => by
    rw [List.foldl_cons, sdkFold_done rest]
    simp [sdkHandleMsg]

theorem runStreamIter_hist (handlers : Handlers) (resp : StreamResp) (hist : List Turn)
    (message : String) :
    (runStreamIter handlers resp hist message).hist =
      (if (runIterChunks handlers resp.chunks [] initChunkState (hist ++ [userTurn message]) []).returned then
        (runIterChunks handlers resp.chunks [] initChunkState (hist ++ [userTurn message]) []).hist
      else if resp.errors then
        (runIterChunks handlers resp.chunks [] initChunkState (hist ++ [userTurn message]) []).hist
      else if (runIterChunks handlers resp.chunks [] initChunkState (hist ++ [userTurn message]) []).qAcc.isEmpty then
        (runIterChunks handlers resp.chunks [] initChunkState (hist ++ [userTurn message]) []).hist
      else
        (runIterChunks handlers resp.chunks [] initChunkState (hist ++ [userTurn message]) []).hist ++
          [assistantTurn (runIterChunks handlers resp.chunks [] initChunkState
            (hist ++ [userTurn message]) []).qAcc]) := rfl

theorem lastN_length_le (n : Nat) (xs : List α) : (lastN n xs).length ≤ n := by
  simp [lastN]
  omega

theorem lastN_of_short (n : Nat) (xs : List α) (h : xs.length ≤ n) : lastN n xs = xs := by
  simp [lastN, Nat.sub_eq_zero_of_le h]

theorem lastN_idem (n : Nat) (xs : List α) : lastN n (lastN n xs) = lastN n xs :=
  lastN_of_short n _ (lastN_length_le n xs)

theorem lastN_ne_nil (n : Nat) (xs : List α) (hn : 0 < n) (hx : xs ≠ []) : lastN n xs ≠ [] := by
  have hlen : 0 < xs.length := List.length_pos.mpr hx
  have : 0 < (lastN n xs).length := by
    simp [lastN]
    omega
  exact List.ne_nil_of_length_pos this

/-- C6: for every tool name and input, `execute_tool` returns a
well-formed ToolResult and never raises (it is a total function): an
unknown tool name yields an error-tagged result with explanatory text, a
handler exception is converted to an error-tagged result carrying the
exception's message, and a successful handler result is returned
unchanged, so the overall run completes normally. -/
theorem claim_c6_execute_tool_fails_closed (handlers : Handlers) (name : String) (input : Json) :
    (lookupHandler handlers name = none →
      execute_tool handlers name input =
        ⟨[textItem ("Tool " ++ name ++ " not found")], true⟩) ∧
    (∀ (f : Json → HandlerOutcome) (r : ToolResult),
      lookupHandler handlers name = some f → f input = HandlerOutcome.ok r →
      execute_tool handlers name input = r) ∧
    (∀ (f : Json → HandlerOutcome) (e : String),
      lookupHandler handlers name = some f → f input = HandlerOutcome.exn e →
      execute_tool handlers name input =
        ⟨[textItem ("Error executing " ++ name ++ ": " ++ e)], true⟩) := by
  refine ⟨?_, ?_, ?_⟩
  · intro h
    simp [execute_tool, h]
  · intro f r hl hr
    simp [execute_tool, hl, hr]
  · intro f e hl he
    simp [execute_tool, hl, he]

/-- Witness for C6: the three branches of `execute_tool` evaluated on the
concrete handlers table `c6Handlers`. -/
theorem claim_c6_witness :
    execute_tool c6Handlers "nope" (Json.obj []) =
      ⟨[textItem ("Tool " ++ "nope" ++ " not found")], true⟩ ∧
    execute_tool c6Handlers "ok_tool" (Json.obj []) = ⟨[textItem "fine"], false⟩ ∧
    execute_tool c6Handlers "bad_tool" (Json.obj []) =
      ⟨[textItem ("Error executing " ++ "bad_tool" ++ ": " ++ "boom")], true⟩ :=
  ⟨(claim_c6_execute_tool_fails_closed c6Handlers "nope" (Json.obj [])).1 rfl,
   (claim_c6_execute_tool_fails_closed c6Handlers "ok_tool" (Json.obj [])).2.1 _ _ rfl rfl,
   (claim_c6_execute_tool_fails_closed c6Handlers "bad_tool" (Json.obj [])).2.2 _ _ rfl rfl⟩

/-- C9: only the last six messages of a supplied conversation history
influence the model call: the SDK-based agent's prompt text depends only
on `conversation_history[-6:]`, and the Bedrock wrapper appends exactly
the last six supplied messages to the agent's transcript, silently
dropping all earlier ones. -/
theorem claim_c9_history_window :
    (∀ (hist : List (String × String)) (message : String),
      buildFullMessage hist message = buildFullMessage (lastN 6 hist) message) ∧
    (∀ (agentHist supplied : List Turn),
      seedHistory agentHist supplied = agentHist ++ lastN 6 supplied) := by
  constructor
  · intro hist message
    by_cases h : hist.isEmpty
    · have h0 : hist = [] := by
        cases hist with
        | nil => rfl
        | cons a l => simp at h
      subst h0
      simp [lastN]
    · simp only [Bool.not_eq_true] at h
      have hne : hist ≠ [] := by
        intro h0
        rw [h0] at h
        simp at h
      have h6 : lastN 6 hist ≠ [] := lastN_ne_nil 6 hist (by omega) hne
      have h6e : (lastN 6 hist).isEmpty = false := by
        cases hq : lastN 6 hist with
        | nil => exact absurd hq h6
        | cons a l => simp
      simp [buildFullMessage, h, h6e, lastN_idem]
  · intro agentHist supplied
    by_cases h : supplied.isEmpty
    · have h0 : supplied = [] := by
        cases supplied with
        | nil => rfl
        | cons a l => simp at h
      subst h0
      simp [seedHistory, lastN]
    · simp only [Bool.not_eq_true] at h
      simp [seedHistory, h]

/-- C10: the non-streaming `query` appends the user turn only after the
transport succeeds, so a transport error leaves the history unchanged; the
streaming `query_stream` appends the user turn before consuming the
stream, so a stream that errors out mid-message leaves a dangling user
turn with no assistant reply. -/
theorem claim_c10_user_turn_append_asymmetry :
    (∀ (oracle : Oracle) (hist : List Turn) (message : String),
      oracle (hist ++ [userTurn message]) = Except.error () →
      (query oracle hist message).hist = hist) ∧
    (∀ (handlers : Handlers) (resp : StreamResp) (hist : List Turn) (message : String),
      resp.errors = true → hasMsgStop resp.chunks = false →
      (runStreamIter handlers resp hist message).raised = true ∧
      (runStreamIter handlers resp hist message).hist = hist ++ [userTurn message]) := by
  constructor
  · intro oracle hist message h
    exact query_hist_error oracle hist message h
  · intro handlers resp hist message herr hms
    obtain ⟨r1, r2, -⟩ := runIterChunks_no_stop handlers resp.chunks [] initChunkState
      (hist ++ [userTurn message]) [] hms
    refine ⟨?_, ?_⟩
    · rw [runStreamIter_raised, r1, herr]
      rfl
    · rw [runStreamIter_hist]
      simp [r1, herr, r2]

/-- Witness for C10: a transport error leaves the non-streaming history
empty, while a mid-stream error leaves exactly the dangling user turn. -/
theorem claim_c10_witness :
    (query (fun _ => Except.error ()) [] "m").hist = [] ∧
    (runStreamIter [] ⟨[Chunk.contentBlockDelta (Delta.textDelta "x")], true⟩ [] "m").raised = true ∧
    (runStreamIter [] ⟨[Chunk.contentBlockDelta (Delta.textDelta "x")], true⟩ [] "m").hist =
      [] ++ [userTurn "m"] :=
  ⟨claim_c10_user_turn_append_asymmetry.1 (fun _ => Except.error ()) [] "m" rfl,
   (claim_c10_user_turn_append_asymmetry.2 []
     ⟨[Chunk.contentBlockDelta (Delta.textDelta "x")], true⟩ [] "m" rfl rfl).1,
   (claim_c10_user_turn_append_asymmetry.2 []
     ⟨[Chunk.contentBlockDelta (Delta.textDelta "x")], true⟩ [] "m" rfl rfl).2⟩

/-- C5: the agentic loop issues at most `max_iterations` model requests
for every transport stub, message and handlers table (and, being a total
function, always terminates); with a transport whose every turn requests
another tool use it runs for exactly the budget and ends normally rather
than erroring; and when no turn produces text the returned response is
the empty string (the accumulator starts at `""`, never null). -/
theorem claim_c5_iteration_budget (oracle : Oracle) (handlers : Handlers) (hist : List Turn)
    (message : String) (maxIter : Nat) :
    (run_agentic_loop oracle handlers hist message maxIter).requests ≤ maxIter ∧
    ((∀ h, ∃ resp, oracle h = Except.ok resp ∧ toolUseIds resp.content ≠ []) →
      (run_agentic_loop oracle handlers hist message maxIter).requests = maxIter ∧
      (run_agentic_loop oracle handlers hist message maxIter).raised = false) ∧
    ((∀ h resp, oracle h = Except.ok resp → joinTextBlocks resp.content = "") →
      (run_agentic_loop oracle handlers hist message maxIter).response = "") := by
  refine ⟨?_, ?_, ?_⟩
  · have := runLoopAux_requests_le oracle handlers message maxIter 0 hist "" [] 0
    simpa [run_agentic_loop] using this
  · intro htool
    have := runLoopAux_all_tools oracle handlers message htool maxIter 0 hist "" [] 0
    simpa [run_agentic_loop] using this
  · intro hempty
    exact runLoopAux_no_text oracle handlers message hempty maxIter 0 hist "" [] 0

/-- Witness for C5: with the always-tool-use stub `c5Oracle` and an empty
handlers table, a budget of 3 yields exactly 3 requests, a normal end and
an empty response string. -/
theorem claim_c5_witness :
    (run_agentic_loop c5Oracle [] [] "go" 3).requests = 3 ∧
    (run_agentic_loop c5Oracle [] [] "go" 3).raised = false ∧
    (run_agentic_loop c5Oracle [] [] "go" 3).response = "" :=
  ⟨((claim_c5_iteration_budget c5Oracle [] [] "go" 3).2.1
      (fun _ => ⟨c5Resp, rfl, by simp [c5Resp, toolUseIds]⟩)).1,
   ((claim_c5_iteration_budget c5Oracle [] [] "go" 3).2.1
      (fun _ => ⟨c5Resp, rfl, by simp [c5Resp, toolUseIds]⟩)).2,
   (claim_c5_iteration_budget c5Oracle [] [] "go" 3).2.2
     (fun h resp hr => by
       have hre : c5Resp = resp := Except.ok.inj hr
       rw [← hre]
       simp [c5Resp, joinTextBlocks])⟩

/-- Counterexample to C4 as stated: with the stub `c4Oracle`, whose every
response has no tool-use block and stop reason `max_tokens` (not
`end_turn`), the non-streaming loop with budget 2 issues 2 model requests
— a further request after a turn that produced no tool use, instead of
terminating. -/
theorem claim_c4_counterexample :
    (run_agentic_loop c4Oracle [] [] "q" 2).requests = 2 ∧
    toolUseIds c4Resp.content = [] ∧
    c4Resp.stop_reason ≠ some "end_turn" :=
  ⟨rfl, rfl, by decide⟩

/-- C4 amended: the STREAMING loop does treat a turn with no tool-use
blocks as completion regardless of stop reason — a streamed message with
no tool-use block start ending in `message_stop` ends the run after a
single request; the NON-STREAMING loop, however, terminates on a
no-tool-use turn only when the stop reason is `end_turn`, and otherwise
keeps issuing model requests until the iteration budget is exhausted. -/
theorem claim_c4_no_tool_termination :
    (∀ (oracle : StreamOracle) (handlers : Handlers) (hist : List Turn) (message : String) (f : Nat),
      startedToolIds (oracle (hist ++ [userTurn message])).chunks = [] →
      hasMsgStop (oracle (hist ++ [userTurn message])).chunks = true →
      (run_agentic_loop_stream oracle handlers hist message (f + 1)).requests = 1) ∧
    (∀ (oracle : Oracle) (handlers : Handlers) (hist : List Turn) (message : String) (maxIter : Nat),
      (∀ h, ∃ resp, oracle h = Except.ok resp ∧ toolUseIds resp.content = [] ∧
        resp.stop_reason ≠ some "end_turn") →
      (run_agentic_loop oracle handlers hist message maxIter).requests = maxIter) := by
  constructor
  · intro oracle handlers hist message f hstart hms
    have hret0 := (runIterChunks_no_tools handlers (oracle (hist ++ [userTurn message])).chunks
      [] [] [] (hist ++ [userTurn message]) [] hstart hms).1
    have hret : (runStreamIter handlers (oracle (hist ++ [userTurn message])) hist message).returned
        = true := by
      rw [runStreamIter_returned]
      exact hret0
    show (runStreamLoopAux oracle handlers message (f + 1) 0 hist [] 0 []).requests = 1
    simp only [runStreamLoopAux]
    simp [hret]
  · intro oracle handlers hist message maxIter hresp
    have := runLoopAux_budget oracle handlers message hresp maxIter 0 hist "" [] 0
    simpa [run_agentic_loop] using this

/-- Witness for the amended C4: the streaming loop stops after one
request on the tool-free stream `c4StreamOracle`, while the non-streaming
loop on `c4Oracle` exhausts a budget of 3. -/
theorem claim_c4_witness :
    (run_agentic_loop_stream c4StreamOracle [] [] "q" 5).requests = 1 ∧
    (run_agentic_loop c4Oracle [] [] "q" 3).requests = 3 :=
  ⟨claim_c4_no_tool_termination.1 c4StreamOracle [] [] "q" 4 rfl rfl,
   claim_c4_no_tool_termination.2 c4Oracle [] [] "q" 3
     (fun _ => ⟨c4Resp, rfl, rfl, by decide⟩)⟩

/-- Counterexample to C3 as stated: on the stub `c3Oracle`, which streams
the partial text `Based on polic` and then raises mid-stream, the
exception escapes the streaming loop (`raised = true`) instead of being
surfaced as a terminal failure event — the emitted event sequence is just
the buffered text event, with no failure or done event of any kind, and
the code has no Failed state at all. -/
theorem claim_c3_counterexample :
    (run_agentic_loop_stream c3Oracle [] [] "q" 10).raised = true ∧
    (run_agentic_loop_stream c3Oracle [] [] "q" 10).events = [Event.textEv "Based on polic"] ∧
    countDone (run_agentic_loop_stream c3Oracle [] [] "q" 10).events = 0 :=
  ⟨rfl, rfl, rfl⟩

/-- C3 amended: when the transport raises mid-stream, the loop does not
retry the stream and all text deltas received before the failure have
already been emitted as `text` events, but the exception then propagates
out of the loop unhandled — there is no Failed state transition and no
terminal failure event in the emitted sequence (in particular no `done`
event); exactly one model request was issued. -/
theorem claim_c3_transport_error_behavior (oracle : StreamOracle) (handlers : Handlers)
    (hist : List Turn) (message : String) (f : Nat)
    (herr : (oracle (hist ++ [userTurn message])).errors = true)
    (hms : hasMsgStop (oracle (hist ++ [userTurn message])).chunks = false) :
    (run_agentic_loop_stream oracle handlers hist message (f + 1)).raised = true ∧
    joinTextEvents (run_agentic_loop_stream oracle handlers hist message (f + 1)).events =
      joinTextDeltas (oracle (hist ++ [userTurn message])).chunks ∧
    countDone (run_agentic_loop_stream oracle handlers hist message (f + 1)).events = 0 ∧
    (run_agentic_loop_stream oracle handlers hist message (f + 1)).requests = 1 := by
  obtain ⟨r1, r2, r3⟩ := runIterChunks_no_stop handlers
    (oracle (hist ++ [userTurn message])).chunks [] initChunkState
    (hist ++ [userTurn message]) [] hms
  have hret : (runStreamIter handlers (oracle (hist ++ [userTurn message])) hist message).returned
      = false := by
    rw [runStreamIter_returned]
    exact r1
  have hrai : (runStreamIter handlers (oracle (hist ++ [userTurn message])) hist message).raised
      = true := by
    rw [runStreamIter_raised, r1, herr]
    rfl
  have hjoin : joinTextEvents
      (runStreamIter handlers (oracle (hist ++ [userTurn message])) hist message).events =
      joinTextDeltas (oracle (hist ++ [userTurn message])).chunks := by
    rw [runStreamIter_events, r3]
    simp [joinTextEvents]
  have hdone := runStreamIter_done handlers (oracle (hist ++ [userTurn message])) hist message
  unfold run_agentic_loop_stream
  simp only [runStreamLoopAux]
  simp [hret, hrai]
  exact ⟨hjoin, hdone⟩

/-- Witness for the amended C3 on the concrete erroring stream
`c3Oracle`. -/
theorem claim_c3_witness :
    (run_agentic_loop_stream c3Oracle [] [] "m" 1).raised = true ∧
    joinTextEvents (run_agentic_loop_stream c3Oracle [] [] "m" 1).events =
      joinTextDeltas (c3Oracle ([] ++ [userTurn "m"])).chunks ∧
    countDone (run_agentic_loop_stream c3Oracle [] [] "m" 1).events = 0 ∧
    (run_agentic_loop_stream c3Oracle [] [] "m" 1).requests = 1 :=
  claim_c3_transport_error_behavior c3Oracle [] [] "m" 0 rfl rfl

/-- C2: every tool-use block of a model turn gets exactly one tool-result
block with the matching id — the per-turn result list's `tool_use_id`s
equal the turn's tool-use ids, in the model's order — and both loops
append all of a turn's results together as one single tool-result-carrying
turn (role `user`) before the next model request: the non-streaming step
appends exactly one such turn after the queried turn, and the streaming
iteration's history grows by exactly the user turn, one combined
tool-result turn, and the assistant turn. -/
theorem claim_c2_single_tool_result_turn :
    (∀ (handlers : Handlers) (content : List Block) (text : String)
      (calls : List (String × Json)),
      resultIds (processBlocks handlers ⟨text, calls, false, []⟩ content).tool_results =
        toolUseIds content) ∧
    (∀ (oracle : Oracle) (handlers : Handlers) (message : String) (hist : List Turn)
      (text : String) (calls : List (String × Json)) (resp : ModelResponse),
      oracle (hist ++ [userTurn message]) = Except.ok resp →
      toolUseIds resp.content ≠ [] →
      (loopStep oracle handlers message hist text calls).hist =
        (query oracle hist message).hist ++
          [toolResultsTurn
            (processBlocks handlers ⟨text, calls, false, []⟩ resp.content).tool_results]) ∧
    (∀ (handlers : Handlers) (chunks : List Chunk) (hist : List Turn) (message : String),
      wfFrom false chunks = true →
      startedToolIds chunks ≠ [] →
      hasMsgStop chunks = true →
      ∃ rs bs,
        (runStreamIter handlers ⟨chunks, false⟩ hist message).hist =
          hist ++ [userTurn message, toolResultsTurn rs, assistantTurn bs] ∧
        resultIds rs = startedToolIds chunks) := by
  refine ⟨?_, ?_, ?_⟩
  · intro handlers content text calls
    have := processBlocks_resultIds handlers content ⟨text, calls, false, []⟩
    simpa [resultIds] using this
  · intro oracle handlers message hist text calls resp hok hne
    exact (loopStep_tool_branch oracle handlers message hist text calls resp hok hne).2.2.1
  · intro handlers chunks hist message hwf hne hms
    obtain ⟨i1, i2, i3, i4, i5, i6⟩ := runIterChunks_wf handlers chunks [] initChunkState
      (hist ++ [userTurn message]) [] (by simpa [initChunkState] using hwf)
    have hr : resultIds (runIterChunks handlers chunks [] initChunkState
        (hist ++ [userTurn message]) []).st.tool_results = startedToolIds chunks := by
      rw [i1]
      simp [initChunkState, pendingIds, resultIds]
    have htu : (runIterChunks handlers chunks [] initChunkState
        (hist ++ [userTurn message]) []).st.has_tool_use = true := by
      rw [i2]
      cases h : startedToolIds chunks with
      | nil => exact absurd h hne
      | cons a l => simp [initChunkState]
    have hresne : (runIterChunks handlers chunks [] initChunkState
        (hist ++ [userTurn message]) []).st.tool_results ≠ [] := by
      intro h0
      rw [h0] at hr
      exact hne (by simpa [resultIds] using hr.symm)
    have hrese : (runIterChunks handlers chunks [] initChunkState
        (hist ++ [userTurn message]) []).st.tool_results.isEmpty = false := by
      cases hq : (runIterChunks handlers chunks [] initChunkState
          (hist ++ [userTurn message]) []).st.tool_results with
      | nil => exact absurd hq hresne
      | cons a l => simp
    have hcond : ((runIterChunks handlers chunks [] initChunkState
        (hist ++ [userTurn message]) []).st.has_tool_use &&
        !(runIterChunks handlers chunks [] initChunkState
          (hist ++ [userTurn message]) []).st.tool_results.isEmpty) = true := by
      rw [htu, hrese]
      rfl
    obtain ⟨hh, hret⟩ := i5 hms
    have hret2 : (runIterChunks handlers chunks [] initChunkState
        (hist ++ [userTurn message]) []).returned = false := by
      rw [hret, hcond]
      rfl
    have hqne : (runIterChunks handlers chunks [] initChunkState
        (hist ++ [userTurn message]) []).qAcc ≠ [] := by
      rw [i3]
      exact foldl_accum_ne chunks [] hne
    have hqe : (runIterChunks handlers chunks [] initChunkState
        (hist ++ [userTurn message]) []).qAcc.isEmpty = false := by
      cases hq : (runIterChunks handlers chunks [] initChunkState
          (hist ++ [userTurn message]) []).qAcc with
      | nil => exact absurd hq hqne
      | cons a l => simp
    refine ⟨(runIterChunks handlers chunks [] initChunkState
        (hist ++ [userTurn message]) []).st.tool_results,
      (runIterChunks handlers chunks [] initChunkState
        (hist ++ [userTurn message]) []).qAcc, ?_, hr⟩
    rw [runStreamIter_hist]
    simp only [hret2, Bool.false_eq_true, if_false, hqe]
    rw [hh]
    simp [hcond]

/-- Witness for C2 on the concrete single-tool response `c2Resp` and
stream `c2Chunks`. -/
theorem claim_c2_witness :
    resultIds (processBlocks c2Handlers ⟨"", [], false, []⟩ c2Resp.content).tool_results =
      toolUseIds c2Resp.content ∧
    (loopStep c2Oracle c2Handlers "go" [] "" []).hist =
      (query c2Oracle [] "go").hist ++
        [toolResultsTurn
          (processBlocks c2Handlers ⟨"", [], false, []⟩ c2Resp.content).tool_results] ∧
    (∃ rs bs,
      (runStreamIter c2Handlers ⟨c2Chunks, false⟩ [] "go").hist =
        [] ++ [userTurn "go", toolResultsTurn rs, assistantTurn bs] ∧
      resultIds rs = startedToolIds c2Chunks) :=
  ⟨claim_c2_single_tool_result_turn.1 c2Handlers c2Resp.content "" [],
   claim_c2_single_tool_result_turn.2.1 c2Oracle c2Handlers "go" [] "" [] c2Resp rfl
     (by simp [c2Resp, toolUseIds]),
   claim_c2_single_tool_result_turn.2.2 c2Handlers c2Chunks [] "go" rfl
     (by simp [c2Chunks, startedToolIds]) rfl⟩

/-- C8: given a deterministic transport stub whose streamed text deltas
concatenate to the same string as the text blocks of the equivalent
non-streaming response, the concatenation of the contents of all `text`
events the streaming iteration emits equals the text the non-streaming
loop accumulates for that turn. -/
theorem claim_c8_streaming_text_equiv (handlers : Handlers) (chunks : List Chunk)
    (content : List Block) (hist : List Turn) (message : String)
    (hwf : wfFrom false chunks = true)
    (htext : joinTextDeltas chunks = joinTextBlocks content) :
    joinTextEvents (runStreamIter handlers ⟨chunks, false⟩ hist message).events =
      (processBlocks handlers ⟨"", [], false, []⟩ content).response_text := by
  obtain ⟨-, -, -, i4, -, -⟩ := runIterChunks_wf handlers chunks [] initChunkState
    (hist ++ [userTurn message]) [] (by simpa [initChunkState] using hwf)
  have he : (runStreamIter handlers ⟨chunks, false⟩ hist message).events =
      (runIterChunks handlers chunks [] initChunkState
        (hist ++ [userTurn message]) []).events := rfl
  rw [he, i4, processBlocks_text]
  simp [joinTextEvents, htext]

/-- Witness for C8 on the two-delta stream `c8Chunks` and its
one-text-block non-streaming counterpart `c8Content`. -/
theorem claim_c8_witness :
    joinTextEvents (runStreamIter [] ⟨c8Chunks, false⟩ [] "m").events =
      (processBlocks [] ⟨"", [], false, []⟩ c8Content).response_text :=
  claim_c8_streaming_text_equiv [] c8Chunks c8Content [] "m" rfl (by decide)

/-- Counterexample to C7 as stated: on the stub `c7Oracle` the Bedrock
wrapper's run produces one tool call (one `tool_use` event is emitted),
yet the final `done` event carries the literal empty `tool_calls` list —
`done` does not carry the tool calls produced during the run. -/
theorem claim_c7_counterexample :
    (bedrockWrapperQueryStream c7Oracle [] [] [] "q").events.getLast? =
      some (Event.doneEv []) ∧
    (bedrockWrapperQueryStream c7Oracle [] [] [] "q").events.countP
      (fun e => isToolUseEv e) = 1 :=
  ⟨rfl, rfl⟩

/-- C7 amended: on every streaming run that completes without a transport
error the event sequence contains exactly one `done` event and it is the
last event; the SDK agent's `done` carries the tool calls accumulated
during the run, but the Bedrock wrapper's `done` always carries an empty
`tool_calls` list (its tool calls are only reported through the
individual `tool_use` events). -/
theorem claim_c7_done_exactly_once_last :
    (∀ (oracle : StreamOracle) (handlers : Handlers) (agentHist supplied : List Turn)
      (message : String),
      (run_agentic_loop_stream oracle handlers (seedHistory agentHist supplied) message 10).raised
        = false →
      countDone (bedrockWrapperQueryStream oracle handlers agentHist supplied message).events = 1 ∧
      (bedrockWrapperQueryStream oracle handlers agentHist supplied message).events.getLast? =
        some (Event.doneEv [])) ∧
    (∀ msgs : List SdkMsg,
      countDone (sdkQueryStream msgs) = 1 ∧
      (sdkQueryStream msgs).getLast? = some (Event.doneEv (toolUsesOf msgs))) := by
  constructor
  · intro oracle handlers agentHist supplied message hraised
    have hloopdone : countDone
        (run_agentic_loop_stream oracle handlers (seedHistory agentHist supplied) message 10).events
        = 0 := by
      have := runStreamLoopAux_done oracle handlers message 10 0 (seedHistory agentHist supplied)
        [] 0 []
      simpa [run_agentic_loop_stream, countDone_nil] using this
    have hev : (bedrockWrapperQueryStream oracle handlers agentHist supplied message).events =
        Event.agentContext ::
          (run_agentic_loop_stream oracle handlers (seedHistory agentHist supplied) message
            10).events ++ [Event.doneEv []] := by
      simp [bedrockWrapperQueryStream, hraised]
    constructor
    · simp [hev, countDone_append, countDone_cons, countDone_nil, hloopdone, isDoneEv]
    · rw [hev]
      exact List.getLast?_concat _
  · intro msgs
    have hcalls := sdkFold_calls msgs ⟨[], [], []⟩
    have hdone := sdkFold_done msgs ⟨[], [], []⟩
    constructor
    · show countDone ((Event.agentContext ::
        (List.foldl sdkHandleMsg ⟨[], [], []⟩ msgs).events) ++
          [Event.doneEv (List.foldl sdkHandleMsg ⟨[], [], []⟩ msgs).tool_calls]) = 1
      simp only [countDone_append, countDone_cons, countDone_nil] at hdone ⊢
      simp [hdone, isDoneEv]
    · show ((Event.agentContext ::
        (List.foldl sdkHandleMsg ⟨[], [], []⟩ msgs).events) ++
          [Event.doneEv (List.foldl sdkHandleMsg ⟨[], [], []⟩ msgs).tool_calls]).getLast? =
        some (Event.doneEv (toolUsesOf msgs))
      rw [List.getLast?_concat, hcalls]
      simp

/-- Witness for the amended C7 on the concrete run `c7Oracle` (Bedrock
wrapper part) and a two-message SDK transcript with one tool use. -/
theorem claim_c7_witness :
    (countDone (bedrockWrapperQueryStream c7Oracle [] [] [] "q").events = 1 ∧
      (bedrockWrapperQueryStream c7Oracle [] [] [] "q").events.getLast? =
        some (Event.doneEv [])) ∧
    (countDone (sdkQueryStream
        [SdkMsg.assistantMessage [SdkBlock.toolUseB (some "i1") "ping" (Json.obj [])],
         SdkMsg.userMessage [SdkBlock.toolResultB (some "i1") [textItem "ok"]]]) = 1 ∧
      (sdkQueryStream
        [SdkMsg.assistantMessage [SdkBlock.toolUseB (some "i1") "ping" (Json.obj [])],
         SdkMsg.userMessage [SdkBlock.toolResultB (some "i1") [textItem "ok"]]]).getLast? =
        some (Event.doneEv (toolUsesOf
          [SdkMsg.assistantMessage [SdkBlock.toolUseB (some "i1") "ping" (Json.obj [])],
           SdkMsg.userMessage [SdkBlock.toolResultB (some "i1") [textItem "ok"]]]))) :=
  ⟨claim_c7_done_exactly_once_last.1 c7Oracle [] [] [] "q" rfl,
   claim_c7_done_exactly_once_last.2
     [SdkMsg.assistantMessage [SdkBlock.toolUseB (some "i1") "ping" (Json.obj [])],
      SdkMsg.userMessage [SdkBlock.toolResultB (some "i1") [textItem "ok"]]]⟩

/-- C1 is violated by the code (a code bug): for the streamed tool-use
block of `c1Chunks`, whose `input_json_delta` fragments concatenate to the
JSON text for the object with key `a` and value `1`, the input dispatched
to `execute_tool` is the empty object `{}` — not, as the claim and spec
require, the value obtained by parsing the concatenated fragments once at
`content_block_stop` (which this theorem also evaluates, to the object
with `a = 1`).  Two independent defects cause this: `query_stream` never
forwards `input_json_delta` chunks to the loop, and the loop's own
accumulator `json.loads(json.dumps(current) + fragment)` always fails with
trailing-data errors that the bare `except: pass` swallows, as the last
two conjuncts evaluate. -/
theorem claim_c1_streamed_input_never_parsed :
    (run_agentic_loop_stream c1Oracle [] [] "q" 10).dispatches =
      [("get_schema", Json.obj [])] ∧
    loads ("\x7b\"a\"" ++ ": 1\x7d") = some (Json.obj [("a", Json.num 1)]) ∧
    updateToolInput (Json.obj []) "\x7b\"a\"" = Json.obj [] ∧
    updateToolInput (Json.obj []) ": 1\x7d" = Json.obj [] :=
  ⟨rfl, rfl, rfl, rfl⟩

end ContextGraph
